import Mathlib

/-!
Verification development for the sxgo library: a read-only query engine for
Sypex Geo v2.2 binary IP-geolocation databases.

The Go source is shallowly embedded: byte slices become lists of naturals
(each byte a value below 256), Go uint32 arithmetic is naturals with explicit
reductions modulo 2 to the 32 where the source can wrap, files are byte lists
with positioned reads, IEEE-754 values are modelled as exact rationals plus
explicit infinity and NaN tags (rounding of the one division the source
performs is abstracted to exact rational division), and fallible functions
return pairs with an optional error or an Except value.  The string parser
for IP addresses (net.ParseIP) is external to the repository; query
operations therefore take the parse result directly: some n is a successful
parse to the big-endian u32 value n, none is a parse failure.
-/

/-- Byte access into a byte slice; out-of-range reads give 0 (the Go source
only indexes in bounds, guarded by explicit length checks). -/
def byteAt (data : List Nat) (i : Nat) : Nat := data.getD i 0

/-- Little-endian 16-bit decode at an offset. -/
def le16 (data : List Nat) (off : Nat) : Nat :=
  byteAt data off + 256 * byteAt data (off + 1)

/-- Little-endian 24-bit decode at an offset. -/
def le24 (data : List Nat) (off : Nat) : Nat :=
  byteAt data off + 256 * byteAt data (off + 1) + 65536 * byteAt data (off + 2)

/-- Little-endian 32-bit decode at an offset. -/
def le32 (data : List Nat) (off : Nat) : Nat :=
  byteAt data off + 256 * byteAt data (off + 1) + 65536 * byteAt data (off + 2) +
    16777216 * byteAt data (off + 3)

/-- Little-endian 64-bit decode at an offset. -/
def le64 (data : List Nat) (off : Nat) : Nat :=
  le32 data off + 4294967296 * le32 data (off + 4)

/-- Big-endian 16-bit decode at an offset. -/
def be16 (data : List Nat) (off : Nat) : Nat :=
  256 * byteAt data off + byteAt data (off + 1)

/-- Big-endian 32-bit decode at an offset. -/
def be32 (data : List Nat) (off : Nat) : Nat :=
  16777216 * byteAt data off + 65536 * byteAt data (off + 1) +
    256 * byteAt data (off + 2) + byteAt data (off + 3)

/-- Reinterpret an unsigned byte as Go int8 (two's complement). -/
def toI8 (b : Nat) : Int := if b < 128 then (b : Int) else (b : Int) - 256

/-- Reinterpret an unsigned 16-bit value as Go int16. -/
def toI16 (n : Nat) : Int := if n < 32768 then (n : Int) else (n : Int) - 65536

/-- Reinterpret an unsigned 32-bit value as Go int32. -/
def toI32 (n : Nat) : Int :=
  if n < 2147483648 then (n : Int) else (n : Int) - 4294967296

/-- Go uint32 subtraction (wraps modulo 2 to the 32). -/
def u32sub (a b : Nat) : Nat := (a + 4294967296 - b % 4294967296) % 4294967296

/-- Model of an IEEE-754 value: an exact finite rational, an infinity with a
sign, or NaN.  Finite arithmetic is exact (no rounding); negative zero is
identified with zero, which is sound for the comparisons the source makes. -/
inductive FVal where
  | finite (q : ℚ)
  | inf (neg : Bool)
  | nan
deriving DecidableEq

/-- Comparison v greater or equal zero, with IEEE semantics for NaN (false). -/
def FVal.ge0 : FVal → Bool
  | .finite q => decide (0 ≤ q)
  | .inf neg => !neg
  | .nan => false

/-- Comparison v less or equal a natural bound, IEEE semantics for NaN. -/
def FVal.leN (v : FVal) (m : Nat) : Bool :=
  match v with
  | .finite q => decide (q ≤ (m : ℚ))
  | .inf neg => neg
  | .nan => false

/-- Whether v equals math.Floor v (true for infinities, false for NaN). -/
def FVal.whole : FVal → Bool
  | .finite q => decide (q.den = 1)
  | .inf _ => true
  | .nan => false

/-- Go numeric conversion of a float to an unsigned integer; only evaluated
by the source under guards that make it the exact integer value. -/
def FVal.toNatTrunc : FVal → Nat
  | .finite q => q.floor.toNat
  | _ => 0

/-- Decode a 32-bit pattern as an IEEE-754 single (math.Float32frombits). -/
def f32frombits (bits : Nat) : FVal :=
  let sign := bits / 2147483648 % 2
  let expo := bits / 8388608 % 256
  let frac := bits % 8388608
  if expo = 255 then
    (if frac = 0 then .inf (sign = 1) else .nan)
  else
    let mag : ℚ :=
      if expo = 0 then (frac : ℚ) * (2 : ℚ) ^ (-(149 : ℤ))
      else ((8388608 + frac : Nat) : ℚ) * (2 : ℚ) ^ ((expo : ℤ) - 150)
    .finite (if sign = 1 then -mag else mag)

/-- Decode a 64-bit pattern as an IEEE-754 double (math.Float64frombits). -/
def f64frombits (bits : Nat) : FVal :=
  let sign := bits / 9223372036854775808 % 2
  let expo := bits / 4503599627370496 % 2048
  let frac := bits % 4503599627370496
  if expo = 2047 then
    (if frac = 0 then .inf (sign = 1) else .nan)
  else
    let mag : ℚ :=
      if expo = 0 then (frac : ℚ) * (2 : ℚ) ^ (-(1074 : ℤ))
      else ((4503599627370496 + frac : Nat) : ℚ) * (2 : ℚ) ^ ((expo : ℤ) - 1075)
    .finite (if sign = 1 then -mag else mag)

/-- Model of math.Pow10: 0 below 10 to the -323, infinity above 10 to 308. -/
def goPow10 (n : Int) : FVal :=
  if n < -323 then .finite 0
  else if n > 308 then .inf false
  else .finite ((10 : ℚ) ^ n)

/-- IEEE division on modelled float values (finite quotients are exact). -/
def fdiv (a b : FVal) : FVal :=
  match a, b with
  | .nan, _ => .nan
  | _, .nan => .nan
  | .inf _, .inf _ => .nan
  | .inf s, .finite q => .inf (xor s (decide (q < 0)))
  | .finite _, .inf _ => .finite 0
  | .finite p, .finite q =>
      if q = 0 then (if p = 0 then .nan else .inf (decide (p < 0)))
      else .finite (p / q)

/-- Value of a decimal digit character, none for other characters. -/
def charDigit (c : Char) : Option Nat :=
  if 48 ≤ c.toNat ∧ c.toNat ≤ 57 then some (c.toNat - 48) else none

/-- Accumulate the value of a digit string; none on a non-digit. -/
def digitsValGo : List Char → Nat → Option Nat
  | [], acc => some acc
  | c :: rest, acc =>
      match charDigit c with
      | none => none
      | some d => digitsValGo rest (acc * 10 + d)

/-- Value of a non-empty digit string, none otherwise. -/
def digitsVal (l : List Char) : Option Nat :=
  if l.isEmpty then none else digitsValGo l 0

/-- Model of strconv.Atoi: the returned int (0 on syntax error, clamped to
the int64 range on range error) and whether the parse succeeded. -/
def goAtoi (s : String) : Int × Bool :=
  let p : Bool × List Char :=
    match s.data with
    | '-' :: rest => (true, rest)
    | '+' :: rest => (false, rest)
    | l => (false, l)
  match digitsVal p.2 with
  | none => (0, false)
  | some v =>
      let x : Int := if p.1 then -(v : Int) else (v : Int)
      if x > 9223372036854775807 then (9223372036854775807, false)
      else if x < -9223372036854775808 then (-9223372036854775808, false)
      else (x, true)

/-- Tagged variant for the values a record field can decode to, mirroring
the dynamic kinds the Go source stores in map entries of type interface.
Decoded strings are byte strings (Go strings are byte sequences). -/
inductive Value where
  | i8 (v : Int)
  | u8 (v : Nat)
  | i16 (v : Int)
  | u16 (v : Nat)
  | i32 (v : Int)
  | u32 (v : Nat)
  | intv (v : Int)
  | uintv (v : Nat)
  | f32 (v : FVal)
  | f64 (v : FVal)
  | str (s : List Nat)
deriving DecidableEq

/-- Unpacked record: a finite map from field names to values, kept as an
association list with at most one entry per key. -/
def UMap := List (String × Value)
deriving DecidableEq

/-- Map update with Go map semantics: replace the entry if the key exists,
append otherwise. -/
def umapInsert (m : UMap) (k : String) (v : Value) : UMap :=
  match m with
  | [] => [(k, v)]
  | e :: rest => if e.1 = k then (k, v) :: rest else e :: umapInsert rest k v

/-- Map lookup. -/
def umapFind (m : UMap) (k : String) : Option Value :=
  match m with
  | [] => none
  | e :: rest => if e.1 = k then some e.2 else umapFind rest k

/-- Number of entries of the map (Go len on the map). -/
def umapLen (m : UMap) : Nat := List.length m

/-- Errors the unpacker can signal. -/
inductive UnpackErr where
  | emptyFormat
  | invalidPart
  | emptySpec
  | truncated
  | invalidCLen
  | unsupported
deriving DecidableEq

/-- Split a character list at every occurrence of a separator (the
semantics of strings.Split for a one-character separator). -/
def splitOnChar (sep : Char) : List Char → List (List Char)
  | [] => [[]]
  | c :: rest =>
    let r := splitOnChar sep rest
    if c = sep then [] :: r
    else
      match r with
      | [] => [[c]]
      | h :: t => (c :: h) :: t

/-- Split a string at a one-character separator. -/
def strSplitOn (s : String) (sep : Char) : List String :=
  (splitOnChar sep s.data).map String.mk

/-- Break a character list at its first colon. -/
def breakColon : List Char → Option (List Char × List Char)
  | [] => none
  | c :: rest =>
    if c = ':' then some ([], rest)
    else (breakColon rest).map (fun p => (c :: p.1, p.2))

/-- Split a format part at its first colon, as strings.SplitN(part, colon, 2);
none when the part has no colon (length-1 split, rejected by the source). -/
def splitSpec (part : String) : Option (String × String) :=
  (breakColon part.data).map (fun p => (String.mk p.1, String.mk p.2))

/-- Trailing NUL and space bytes removed (strings.TrimRight with a NUL and a
space in the cut set). -/
def trimRightPad (l : List Nat) : List Nat :=
  (l.reverse.dropWhile (fun b => b = 0 || b = 32)).reverse

/-- Scan for a zero byte with explicit fuel (the fuel is the exact loop
measure, so the loop condition is already false when it runs out). -/
def findNulGo (data : List Nat) : Nat → Nat → Nat
  | 0, i => i
  | fuel + 1, i =>
    if i < data.length then
      (if byteAt data i = 0 then i else findNulGo data fuel (i + 1))
    else i

/-- First index at or after i holding a zero byte, or the length if none. -/
def findNul (data : List Nat) (i : Nat) : Nat :=
  findNulGo data (data.length - i) i

/-- Main loop of the unpacker over the parts of the format string.  Mirrors
the Go loop: stop without error when the input is exhausted at a part
boundary; fail (returning the partial map) when a fixed-width field does not
fit in the remaining input, when a part is malformed, or on an unknown type
code.  The emptySpec error stands for the out-of-range byte index the source
performs on a part whose type specifier is the empty string (a Go runtime
halt); no claim exercises it. -/
def unpackParts : List String → List Nat → Nat → UMap → UMap × Option UnpackErr
  | [], _, _, acc => (acc, none)
  | part :: rest, data, offset, acc =>
    if offset ≥ data.length then (acc, none)
    else
      match splitSpec part with
      | none => (acc, some .invalidPart)
      | some spec =>
        match spec.1.data with
        | [] => (acc, some .emptySpec)
        | c :: lenChars =>
          let typeLenStr := String.mk lenChars
          let dataLen := data.length
          if c = 't' then
            if offset + 1 > dataLen then (acc, some .truncated)
            else unpackParts rest data (offset + 1)
              (umapInsert acc spec.2 (.i8 (toI8 (byteAt data offset))))
          else if c = 'T' then
            if offset + 1 > dataLen then (acc, some .truncated)
            else unpackParts rest data (offset + 1)
              (umapInsert acc spec.2 (.u8 (byteAt data offset)))
          else if c = 's' then
            if offset + 2 > dataLen then (acc, some .truncated)
            else unpackParts rest data (offset + 2)
              (umapInsert acc spec.2 (.i16 (toI16 (le16 data offset))))
          else if c = 'S' then
            if offset + 2 > dataLen then (acc, some .truncated)
            else unpackParts rest data (offset + 2)
              (umapInsert acc spec.2 (.u16 (le16 data offset)))
          else if c = 'm' then
            if offset + 3 > dataLen then (acc, some .truncated)
            else
              let v : Int :=
                if byteAt data (offset + 2) ≥ 128 then
                  toI32 (le24 data offset + 4278190080)
                else (le24 data offset : Int)
              unpackParts rest data (offset + 3) (umapInsert acc spec.2 (.i32 v))
          else if c = 'M' then
            if offset + 3 > dataLen then (acc, some .truncated)
            else unpackParts rest data (offset + 3)
              (umapInsert acc spec.2 (.u32 (le24 data offset)))
          else if c = 'i' then
            if offset + 4 > dataLen then (acc, some .truncated)
            else unpackParts rest data (offset + 4)
              (umapInsert acc spec.2 (.i32 (toI32 (le32 data offset))))
          else if c = 'I' then
            if offset + 4 > dataLen then (acc, some .truncated)
            else unpackParts rest data (offset + 4)
              (umapInsert acc spec.2 (.u32 (le32 data offset)))
          else if c = 'f' then
            if offset + 4 > dataLen then (acc, some .truncated)
            else unpackParts rest data (offset + 4)
              (umapInsert acc spec.2 (.f64 (f32frombits (le32 data offset))))
          else if c = 'd' then
            if offset + 8 > dataLen then (acc, some .truncated)
            else unpackParts rest data (offset + 8)
              (umapInsert acc spec.2 (.f64 (f64frombits (le64 data offset))))
          else if c = 'n' then
            if offset + 2 > dataLen then (acc, some .truncated)
            else
              let scale := (goAtoi typeLenStr).1
              let v := fdiv (.finite ((toI16 (le16 data offset) : ℚ))) (goPow10 scale)
              unpackParts rest data (offset + 2) (umapInsert acc spec.2 (.f64 v))
          else if c = 'N' then
            if offset + 4 > dataLen then (acc, some .truncated)
            else
              let scale := (goAtoi typeLenStr).1
              let v := fdiv (.finite ((toI32 (le32 data offset) : ℚ))) (goPow10 scale)
              unpackParts rest data (offset + 4) (umapInsert acc spec.2 (.f64 v))
          else if c = 'c' then
            let parsed := goAtoi typeLenStr
            if parsed.2 = false ∨ parsed.1 ≤ 0 then (acc, some .invalidCLen)
            else
              let length :=
                if offset + parsed.1.toNat > dataLen then dataLen - offset
                else parsed.1.toNat
              let v := Value.str (trimRightPad ((data.drop offset).take length))
              unpackParts rest data (offset + length) (umapInsert acc spec.2 v)
          else if c = 'b' then
            let e := findNul data offset
            if e ≥ dataLen then
              unpackParts rest data (offset + (dataLen - offset))
                (umapInsert acc spec.2 (.str (data.drop offset)))
            else
              unpackParts rest data (offset + (e - offset + 1))
                (umapInsert acc spec.2 (.str ((data.drop offset).take (e - offset))))
          else (acc, some .unsupported)

/-- The record unpacker: decode a byte slice into a field map following a
pack format string.  Empty input unpacks to an empty map without error; an
empty format string is an error. -/
def unpack (format : String) (data : List Nat) : UMap × Option UnpackErr :=
  if data.isEmpty then ([], none)
  else if format = "" then ([], some .emptyFormat)
  else unpackParts (strSplitOn format '/') data 0 []

/-- Typed accessor for string fields: the stored byte string, or empty. -/
def getString (m : UMap) (key : String) : List Nat :=
  match umapFind m key with
  | some (.str s) => s
  | _ => []

/-- Go uint8 conversion of an int8 value (two's complement wrap). -/
def u8ofI8 (v : Int) : Nat := (v % 256).toNat

/-- Typed accessor returning a uint8, with the exact kind coverage of the
source: uint8 and int8 unconditionally (int8 by two's-complement wrap),
int, uint16, uint32 and the two float kinds when in range (floats also
integral); all other kinds, including int16 and int32, give zero. -/
def getUint8 (m : UMap) (key : String) : Nat :=
  match umapFind m key with
  | some (.u8 v) => v
  | some (.i8 v) => u8ofI8 v
  | some (.intv v) => if 0 ≤ v ∧ v ≤ 255 then v.toNat else 0
  | some (.u16 v) => if v ≤ 255 then v else 0
  | some (.u32 v) => if v ≤ 255 then v else 0
  | some (.f64 v) => if v.ge0 && v.leN 255 && v.whole then v.toNatTrunc else 0
  | some (.f32 v) => if v.ge0 && v.leN 255 && v.whole then v.toNatTrunc else 0
  | _ => 0

/-- Typed accessor returning a uint32, with the exact kind coverage of the
source: uint32, non-negative int32, in-range int, uint16, uint8, and the two
float kinds when in range and integral; other kinds, including int8 and
int16, give zero. -/
def getUint32 (m : UMap) (key : String) : Nat :=
  match umapFind m key with
  | some (.u32 v) => v
  | some (.i32 v) => if 0 ≤ v then v.toNat else 0
  | some (.intv v) => if 0 ≤ v ∧ v ≤ 4294967295 then v.toNat else 0
  | some (.u16 v) => v
  | some (.u8 v) => v
  | some (.f64 v) => if v.ge0 && v.leN 4294967295 && v.whole then v.toNatTrunc else 0
  | some (.f32 v) => if v.ge0 && v.leN 4294967295 && v.whole then v.toNatTrunc else 0
  | _ => 0

/-- Typed accessor returning a float64: float kinds pass through, every
integer kind converts, anything else gives zero. -/
def getFloat (m : UMap) (key : String) : FVal :=
  match umapFind m key with
  | some (.f64 v) => v
  | some (.f32 v) => v
  | some (.intv v) => .finite (v : ℚ)
  | some (.i8 v) => .finite (v : ℚ)
  | some (.i16 v) => .finite (v : ℚ)
  | some (.i32 v) => .finite (v : ℚ)
  | some (.uintv v) => .finite (v : ℚ)
  | some (.u8 v) => .finite (v : ℚ)
  | some (.u16 v) => .finite (v : ℚ)
  | some (.u32 v) => .finite (v : ℚ)
  | _ => .finite 0

/-- The static country-id to ISO-3166-alpha-2 table (256 entries). -/
def id2iso : List String :=
  ["", "AP", "EU", "AD", "AE", "AF", "AG", "AI", "AL", "AM", "CW",
   "AO", "AQ", "AR", "AS", "AT", "AU", "AW", "AZ", "BA", "BB", "BD",
   "BE", "BF", "BG", "BH", "BI", "BJ", "BM", "BN", "BO", "BR", "BS",
   "BT", "BV", "BW", "BY", "BZ", "CA", "CC", "CD", "CF", "CG", "CH",
   "CI", "CK", "CL", "CM", "CN", "CO", "CR", "CU", "CV", "CX", "CY",
   "CZ", "DE", "DJ", "DK", "DM", "DO", "DZ", "EC", "EE", "EG", "EH",
   "ER", "ES", "ET", "FI", "FJ", "FK", "FM", "FO", "FR", "SX", "GA",
   "GB", "GD", "GE", "GF", "GH", "GI", "GL", "GM", "GN", "GP", "GQ",
   "GR", "GS", "GT", "GU", "GW", "GY", "HK", "HM", "HN", "HR", "HT",
   "HU", "ID", "IE", "IL", "IN", "IO", "IQ", "IR", "IS", "IT", "JM",
   "JO", "JP", "KE", "KG", "KH", "KI", "KM", "KN", "KP", "KR", "KW",
   "KY", "KZ", "LA", "LB", "LC", "LI", "LK", "LR", "LS", "LT", "LU",
   "LV", "LY", "MA", "MC", "MD", "MG", "MH", "MK", "ML", "MM", "MN",
   "MO", "MP", "MQ", "MR", "MS", "MT", "MU", "MV", "MW", "MX", "MY",
   "MZ", "NA", "NC", "NE", "NF", "NG", "NI", "NL", "NO", "NP", "NR",
   "NU", "NZ", "OM", "PA", "PE", "PF", "PG", "PH", "PK", "PL", "PM",
   "PN", "PR", "PS", "PT", "PW", "PY", "QA", "RE", "RO", "RU", "RW",
   "SA", "SB", "SC", "SD", "SE", "SG", "SH", "SI", "SJ", "SK", "SL",
   "SM", "SN", "SO", "SR", "ST", "SV", "SY", "SZ", "TC", "TD", "TF",
   "TG", "TH", "TJ", "TK", "TM", "TN", "TO", "TL", "TR", "TT", "TV",
   "TW", "TZ", "UA", "UG", "UM", "US", "UY", "UZ", "VA", "VC", "VE",
   "VG", "VI", "VN", "VU", "WF", "WS", "YE", "YT", "RS", "ZA", "ZM",
   "ME", "ZW", "A1", "A2", "O1", "AX", "GG", "IM", "JE", "BL", "MF",
   "BQ", "SS", "Unknown"]

/-- ISO code for a country id: empty for id 0 and out-of-range ids. -/
def getISO (id : Nat) : String :=
  if 0 < id ∧ id < id2iso.length then id2iso.getD id "" else ""

/-- Parsed database header (all fields naturals, bounded by their widths). -/
structure Header where
  version : Nat
  timestamp : Nat
  dbType : Nat
  charset : Nat
  byteIndexLen : Nat
  mainIndexLen : Nat
  rangeBlocks : Nat
  dbItems : Nat
  idLen : Nat
  maxRegion : Nat
  maxCity : Nat
  regionSize : Nat
  citySize : Nat
  maxCountry : Nat
  countrySize : Nat
  packSize : Nat
deriving DecidableEq

/-- Length of the fixed database header. -/
def dbHeaderLen : Nat := 40

/-- Offset of the payload id inside a DB block (after the 3 IP bytes). -/
def dbBlockLenOffset : Nat := 3

/-- Header decoder: checks the length and the SxG signature, decodes the
big-endian fields at their fixed positions, and validates the critical
fields (non-zero, and idLen at most 4). -/
def parseHeader (data : List Nat) : Option Header :=
  if data.length < dbHeaderLen then none
  else if ¬(byteAt data 0 = 83 ∧ byteAt data 1 = 120 ∧ byteAt data 2 = 71) then none
  else
    let h : Header :=
      { version := byteAt data 3
        timestamp := be32 data 4
        dbType := byteAt data 8
        charset := byteAt data 9
        byteIndexLen := byteAt data 10
        mainIndexLen := be16 data 11
        rangeBlocks := be16 data 13
        dbItems := be32 data 15
        idLen := byteAt data 19
        maxRegion := be16 data 20
        maxCity := be16 data 22
        regionSize := be32 data 24
        citySize := be32 data 28
        maxCountry := be16 data 32
        countrySize := be32 data 34
        packSize := be16 data 38 }
    if h.byteIndexLen = 0 ∨ h.mainIndexLen = 0 ∨ h.rangeBlocks = 0 ∨
        h.dbItems = 0 ∨ h.idLen = 0 ∨ h.idLen > 4 then none
    else some h

/-- Errors the engine can surface.  Message texts and fmt.Errorf wrapping are
dropped; the reserved-range sentinel is kept distinguishable because the
public API tests for it with errors.Is. -/
inductive SxErr where
  | invalidIp
  | reserved
  | unpackE (e : UnpackErr)
  | invalidSeek
  | badType
  | nilFile
  | missingCityFormat
  | cityRead (e : SxErr)
  | cityEmpty
  | noData
  | zeroRange
  | dbEmpty
  | noDbData
  | memRangeInvalid
  | fileRangeZero
  | readZero
  | idLenMismatch
  | unsupportedIdLen
  | readFail
  | badHeader
  | noPackFormats
deriving DecidableEq

/-- City record (public fields plus the two internal fields the source
keeps on the struct for later lookups). -/
structure City where
  id : Nat
  lat : FVal
  lon : FVal
  nameRu : List Nat
  nameEn : List Nat
  regionSeek : Nat
  countryID : Nat
deriving DecidableEq

/-- Region record. -/
structure Region where
  id : Nat
  nameRu : List Nat
  nameEn : List Nat
  iso : List Nat
  countrySeek : Nat
deriving DecidableEq

/-- Country record (the ISO code comes from the static table). -/
structure Country where
  id : Nat
  iso : String
  lat : FVal
  lon : FVal
  nameRu : List Nat
  nameEn : List Nat
deriving DecidableEq

/-- Combined geolocation result. -/
structure LocationInfo where
  city : Option City
  region : Option Region
  country : Option Country
deriving DecidableEq

/-- Engine state.  The open file handle is modelled by the file's byte
contents (none once closed or never opened); data buffers that the source
keeps as nil-able slices are options. -/
structure SxGeo where
  f : Option (List Nat)
  header : Header
  packFormats : List String
  dbBegin : Nat
  regionsBegin : Nat
  citiesBegin : Nat
  blockSize : Nat
  memoryMode : Bool
  batchMode : Bool
  byteIndexStr : List Nat
  mainIndexStr : List Nat
  byteIndexArr : List Nat
  mainIndexArr : List Nat
  dbData : Option (List Nat)
  regionsData : Option (List Nat)
  citiesData : Option (List Nat)

/-- Resident-mode byte fetch of the backing store: a sub-range of the
loaded buffer, with the end clamped to the buffer length; empty when the
range degenerates; an error exactly when the offset lies strictly beyond
the buffer. -/
def memFetch (sourceData : List Nat) (seek maxSize : Nat) : Except SxErr (List Nat) :=
  let sourceLen := sourceData.length
  if seek > sourceLen then .error .invalidSeek
  else
    let e0 := seek + maxSize
    let e1 := if e0 > sourceLen then sourceLen else e0
    if seek ≥ e1 then .ok []
    else .ok ((sourceData.drop seek).take (e1 - seek))

/-- Read and unpack one record (country 0, region 1, city 2) at a seek
offset, reading at most maxSize bytes.  Missing pack format or a zero read
size give an empty map without error.  In resident mode the read is the
clamped sub-range of memFetch; in file mode it is a positioned read
truncated at end of file, empty reads giving an empty map.  The unpacker's
partial map is returned alongside its error, exactly as in the source. -/
def SxGeo.readData (s : SxGeo) (seek : Nat) (maxSize : Nat) (dataType : Nat) :
    UMap × Option SxErr :=
  if dataType ≥ s.packFormats.length ∨ s.packFormats.getD dataType "" = "" then ([], none)
  else if maxSize = 0 then ([], none)
  else if s.memoryMode then
    if dataType > 2 then ([], some .badType)
    else
      let src : Option (List Nat) :=
        if dataType = 0 then s.citiesData
        else if dataType = 1 then s.regionsData
        else s.citiesData
      match src with
      | none => ([], none)
      | some sourceData =>
        match memFetch sourceData seek maxSize with
        | .error e => ([], some e)
        | .ok data =>
          if data.isEmpty then ([], none)
          else
            let r := unpack (s.packFormats.getD dataType "") data
            (r.1, r.2.map SxErr.unpackE)
  else
    match s.f with
    | none => ([], some .nilFile)
    | some file =>
      if dataType > 2 then ([], some .badType)
      else
        let absOffset :=
          if dataType = 0 then s.citiesBegin + seek
          else if dataType = 1 then s.regionsBegin + seek
          else s.citiesBegin + seek
        let bytes := (file.drop absOffset).take maxSize
        if bytes.length = 0 then ([], none)
        else
          let r := unpack (s.packFormats.getD dataType "") bytes
          (r.1, r.2.map SxErr.unpackE)

/-- Assemble City, Region and Country data for a city seek.  Region data is
attempted only for a full lookup and is dropped silently on a read error or
an empty result; country data read through the region's seek can override
the city record's country id; a country read error still leaves the partial
country map in use, exactly as in the source. -/
def SxGeo.parseCity (s : SxGeo) (seek : Nat) (full : Bool) : Except SxErr LocationInfo :=
  if s.packFormats.length ≤ 2 ∨ s.packFormats.getD 2 "" = "" then .error .missingCityFormat
  else
    let cityRes := s.readData seek s.header.maxCity 2
    match cityRes.2 with
    | some e => .error (.cityRead e)
    | none =>
      if umapLen cityRes.1 = 0 then .error .cityEmpty
      else
        let cityData := cityRes.1
        let city : City :=
          { id := getUint32 cityData "id"
            lat := getFloat cityData "lat"
            lon := getFloat cityData "lon"
            nameRu := getString cityData "name_ru"
            nameEn := getString cityData "name_en"
            regionSeek := getUint32 cityData "region_seek"
            countryID := getUint8 cityData "country_id" }
        let regionPair : Option Region × Nat :=
          if full ∧ city.regionSeek > 0 ∧ s.header.maxRegion > 0 then
            if s.packFormats.length ≤ 1 ∨ s.packFormats.getD 1 "" = "" then (none, 0)
            else
              let rr := s.readData city.regionSeek s.header.maxRegion 1
              match rr.2 with
              | some _ => (none, 0)
              | none =>
                if umapLen rr.1 > 0 then
                  let reg : Region :=
                    { id := getUint32 rr.1 "id"
                      nameRu := getString rr.1 "name_ru"
                      nameEn := getString rr.1 "name_en"
                      iso := getString rr.1 "iso"
                      countrySeek := getUint32 rr.1 "country_seek" }
                  (some reg, reg.countrySeek)
                else (none, 0)
          else (none, 0)
        let countrySeek := regionPair.2
        let countryData : UMap :=
          if countrySeek > 0 ∧ s.header.maxCountry > 0 then
            if s.packFormats.length = 0 ∨ s.packFormats.getD 0 "" = "" then []
            else (s.readData countrySeek s.header.maxCountry 0).1
          else []
        let countryIDToUse :=
          if umapLen countryData > 0 ∧ (umapFind countryData "id").isSome then
            getUint8 countryData "id"
          else city.countryID
        let country : Option Country :=
          if countryIDToUse > 0 then
            if umapLen countryData > 0 then
              some { id := countryIDToUse, iso := getISO countryIDToUse
                     lat := getFloat countryData "lat", lon := getFloat countryData "lon"
                     nameRu := getString countryData "name_ru"
                     nameEn := getString countryData "name_en" }
            else
              some { id := countryIDToUse, iso := getISO countryIDToUse
                     lat := .finite 0, lon := .finite 0, nameRu := [], nameEn := [] }
          else none
        let info : LocationInfo :=
          { city := some city, region := regionPair.1, country := country }
        if info.city.isNone ∧ info.region.isNone ∧ info.country.isNone then .error .noData
        else .ok info

/-- Bisection phase of the main-index search over a pre-parsed array.  The
fuel argument is the exact loop measure (upper bound minus lower bound):
the bisection gap shrinks by at least one per iteration, so the loop
condition is already false whenever the fuel runs out. -/
def idxBinA (arr : List Nat) (x : Nat) : Nat → Nat → Nat → Nat × Nat
  | 0, mn, mx => (mn, mx)
  | fuel + 1, mn, mx =>
    if mx - mn > 8 then
      let mid := mn + (mx - mn) / 2
      if x > arr.getD mid 0 then idxBinA arr x fuel (mid + 1) mx
      else idxBinA arr x fuel mn mid
    else (mn, mx)

/-- Linear phase of the main-index search over a pre-parsed array, with
fuel equal to the exact loop measure. -/
def idxLinA (arr : List Nat) (x : Nat) : Nat → Nat → Nat → Nat
  | 0, mn, _ => mn
  | fuel + 1, mn, cur =>
    if mn ≤ cur then
      (if x > arr.getD mn 0 then idxLinA arr x fuel (mn + 1) cur else mn)
    else mn

/-- Bisection phase of the main-index search over raw big-endian bytes. -/
def idxBinR (raw : List Nat) (x : Nat) : Nat → Nat → Nat → Nat × Nat
  | 0, mn, mx => (mn, mx)
  | fuel + 1, mn, mx =>
    if mx - mn > 8 then
      let mid := mn + (mx - mn) / 2
      if x > be32 raw (mid * 4) then idxBinR raw x fuel (mid + 1) mx
      else idxBinR raw x fuel mn mid
    else (mn, mx)

/-- Linear phase of the main-index search over raw bytes, with the
defensive out-of-bounds break of the source. -/
def idxLinR (raw : List Nat) (x : Nat) : Nat → Nat → Nat → Nat
  | 0, mn, _ => mn
  | fuel + 1, mn, cur =>
    if mn ≤ cur then
      (if mn * 4 + 4 > raw.length then mn
       else if x > be32 raw (mn * 4) then idxLinR raw x fuel (mn + 1) cur
       else mn)
    else mn

/-- Main-index partition search: clamp the upper bound to the index length,
return the lower bound unchanged when the range is empty, otherwise bisect
while the gap exceeds 8 and linear-scan to the first entry at least the IP. -/
def SxGeo.searchIdx (s : SxGeo) (ipBytes : List Nat) (mn mx : Nat) : Nat :=
  let x := be32 ipBytes 0
  if s.batchMode || s.memoryMode then
    let indexLen := s.mainIndexArr.length
    if indexLen = 0 then mn
    else
      let mx1 := if mx ≥ indexLen then indexLen - 1 else mx
      if mn > mx1 then mn
      else
        let p := idxBinA s.mainIndexArr x (mx1 - mn) mn mx1
        idxLinA s.mainIndexArr x (mx1 + 1 - p.1) p.1 mx1
  else
    let indexLenBytes := s.mainIndexStr.length
    if indexLenBytes = 0 then mn
    else
      let indexLen := indexLenBytes / 4
      if indexLen = 0 then mn
      else
        let mx1 := if mx ≥ indexLen then indexLen - 1 else mx
        if mn > mx1 then mn
        else
          let p := idxBinR s.mainIndexStr x (mx1 - mn) mn mx1
          idxLinR s.mainIndexStr x (mx1 + 1 - p.1) p.1 mx1

/-- Three-byte lexicographic comparison of the last three IP octets against
the three IP bytes of a DB block, as the byte loop of the source. -/
def cmpSuffix (ipBytes data : List Nat) (blockOffset : Nat) : Int :=
  let x0 := byteAt ipBytes 1
  let y0 := byteAt data blockOffset
  if x0 > y0 then 1
  else if x0 < y0 then -1
  else
    let x1 := byteAt ipBytes 2
    let y1 := byteAt data (blockOffset + 1)
    if x1 > y1 then 1
    else if x1 < y1 then -1
    else
      let x2 := byteAt ipBytes 3
      let y2 := byteAt data (blockOffset + 2)
      if x2 > y2 then 1 else if x2 < y2 then -1 else 0

/-- Bisection phase of the DB block search, fuel being the exact measure. -/
def dbBin (data ipBytes : List Nat) (blockSize : Nat) : Nat → Nat → Nat → Nat × Nat
  | 0, mn, mx => (mn, mx)
  | fuel + 1, mn, mx =>
    if mx - mn > 8 then
      let mid := mn + (mx - mn) / 2
      if cmpSuffix ipBytes data (mid * blockSize) > 0 then
        dbBin data ipBytes blockSize fuel (mid + 1) mx
      else dbBin data ipBytes blockSize fuel mn mid
    else (mn, mx)

/-- Linear phase of the DB block search: advance to the first block whose IP
bytes exceed the target suffix. -/
def dbLin (data ipBytes : List Nat) (blockSize : Nat) : Nat → Nat → Nat → Nat
  | 0, mn, _ => mn
  | fuel + 1, mn, cur =>
    if mn < cur then
      (if cmpSuffix ipBytes data (mn * blockSize) < 0 then mn
       else dbLin data ipBytes blockSize fuel (mn + 1) cur)
    else mn

/-- Decode a payload id: big-endian over exactly idLen bytes, the 3-byte
case composed by shifts. -/
def SxGeo.decodeID (s : SxGeo) (idBytes : List Nat) : Except SxErr Nat :=
  let expectedLen := s.header.idLen
  if idBytes.length ≠ expectedLen then .error .idLenMismatch
  else if expectedLen = 1 then .ok (byteAt idBytes 0)
  else if expectedLen = 2 then .ok (be16 idBytes 0)
  else if expectedLen = 3 then
    .ok (65536 * byteAt idBytes 0 + 256 * byteAt idBytes 1 + byteAt idBytes 2)
  else if expectedLen = 4 then .ok (be32 idBytes 0)
  else .error .unsupportedIdLen

/-- Binary search over a slice of DB blocks for the payload of the block
covering the target IP suffix; 0 means not found. -/
def SxGeo.searchDb (s : SxGeo) (data ipBytes : List Nat) (mn mx : Nat) : Except SxErr Nat :=
  let blockSize := s.blockSize
  let dataLen := data.length
  if dataLen = 0 then
    (if mx > mn then .error .noData else .ok 0)
  else
    let numBlocks := dataLen / blockSize
    let mx1 := if mx > numBlocks then numBlocks else mx
    if mn ≥ mx1 then
      (if mn > 0 then
        let idOffset := (mn - 1) * blockSize + dbBlockLenOffset
        if idOffset + s.header.idLen ≤ dataLen then
          s.decodeID ((data.drop idOffset).take s.header.idLen)
        else .ok 0
      else .ok 0)
    else
      let p := dbBin data ipBytes blockSize (mx1 - mn) mn mx1
      let fin := dbLin data ipBytes blockSize (mx1 - p.1) p.1 mx1
      if fin = 0 then .ok 0
      else
        let idOffset := (fin - 1) * blockSize + dbBlockLenOffset
        if idOffset + s.header.idLen > dataLen then .ok 0
        else s.decodeID ((data.drop idOffset).take s.header.idLen)

/-- Range fixup of the final DB search: an empty range searches the single
block at the lower bound, or falls back to the last block, or fails on an
empty database. -/
def SxGeo.fixRange (s : SxGeo) (searchMin0 searchMax0 : Nat) : Except SxErr (Nat × Nat) :=
  if searchMin0 ≥ searchMax0 then
    (if searchMin0 < s.header.dbItems then .ok (searchMin0, searchMin0 + 1)
     else if s.header.dbItems > 0 then .ok (s.header.dbItems - 1, s.header.dbItems)
     else .error .dbEmpty)
  else .ok (searchMin0, searchMax0)

/-- Mode-dependent block search over a fixed range: the upper bound is
clamped to the item count, then the blocks come from the resident buffer or
a positioned file read, with the last-block fallbacks of the source. -/
def SxGeo.dbSearchAt (s : SxGeo) (ipBytes : List Nat) (pr : Nat × Nat) :
    Except SxErr Nat :=
    let searchMin := pr.1
    let searchMax := if pr.2 > s.header.dbItems then s.header.dbItems else pr.2
    if s.memoryMode then
      match s.dbData with
      | none => .error .noDbData
      | some dd =>
        let startByte := searchMin * s.blockSize
        let endByte0 := searchMax * s.blockSize
        let endByte := if endByte0 > dd.length then dd.length else endByte0
        if startByte ≥ endByte then
          (if s.header.dbItems > 0 then
            let idOffset := (s.header.dbItems - 1) * s.blockSize + dbBlockLenOffset
            if idOffset + s.header.idLen ≤ dd.length then
              s.decodeID ((dd.drop idOffset).take s.header.idLen)
            else .error .memRangeInvalid
          else .error .memRangeInvalid)
        else
          let dbPart := (dd.drop startByte).take (endByte - startByte)
          s.searchDb dbPart ipBytes 0 (dbPart.length / s.blockSize)
    else
      let readCount := u32sub searchMax searchMin
      if readCount = 0 then .error .fileRangeZero
      else
        let readLen := readCount * s.blockSize
        let readOffset := s.dbBegin + searchMin * s.blockSize
        match s.f with
        | none => .error .nilFile
        | some file =>
          let dbPart := (file.drop readOffset).take readLen
          if dbPart.length = 0 then
            (if readLen > 0 then
              (if s.header.dbItems > 0 then
                let lastBlockOffset := s.dbBegin + (s.header.dbItems - 1) * s.blockSize
                let lastBlockBytes := (file.drop lastBlockOffset).take s.blockSize
                if lastBlockBytes.length ≥ dbBlockLenOffset + s.header.idLen then
                  s.decodeID ((lastBlockBytes.drop dbBlockLenOffset).take s.header.idLen)
                else .error .readZero
              else .error .readZero)
            else s.searchDb [] ipBytes 0 0)
          else s.searchDb dbPart ipBytes 0 (dbPart.length / s.blockSize)

/-- Final DB search: the range fixup followed by the mode-dependent block
search. -/
def SxGeo.finishSearch (s : SxGeo) (ipBytes : List Nat) (searchMin0 searchMax0 : Nat) :
    Except SxErr Nat :=
  match s.fixRange searchMin0 searchMax0 with
  | .error e => .error e
  | .ok pr => s.dbSearchAt ipBytes pr

/-- Lookup core on a parsed IPv4 value: the reserved-range filter, the
first-byte index range, optional main-index narrowing (with uint32 wraps
where the source subtracts or multiplies in 32 bits), then the DB search. -/
def SxGeo.getNumFrom (s : SxGeo) (ipNum : Nat) : Except SxErr Nat :=
  let ipBytes := [ipNum / 16777216 % 256, ipNum / 65536 % 256, ipNum / 256 % 256, ipNum % 256]
  let ip1 := byteAt ipBytes 0
  if ip1 = 0 ∨ ip1 = 10 ∨ ip1 = 127 ∨ ip1 ≥ s.header.byteIndexLen then .error .reserved
  else
    let useParsed := s.batchMode || s.memoryMode
    let minBlock :=
      if useParsed then s.byteIndexArr.getD (ip1 - 1) 0 else be32 s.byteIndexStr ((ip1 - 1) * 4)
    let maxBlock :=
      if useParsed then s.byteIndexArr.getD ip1 0 else be32 s.byteIndexStr (ip1 * 4)
    let rangeBlocks := s.header.rangeBlocks
    if u32sub maxBlock minBlock > rangeBlocks then
      if rangeBlocks = 0 then .error .zeroRange
      else
        let mainIdxMin := minBlock / rangeBlocks
        let mainIdxMax0 := u32sub maxBlock 1 / rangeBlocks
        let mainIdxMax := if mainIdxMax0 < mainIdxMin then mainIdxMin else mainIdxMax0
        let part := s.searchIdx ipBytes mainIdxMin mainIdxMax
        let searchMin0 := if part = 0 then minBlock else part * rangeBlocks % 4294967296
        let searchMax0 :=
          if part ≥ s.header.mainIndexLen then s.header.dbItems
          else (part + 1) * rangeBlocks % 4294967296
        let searchMin1 := if searchMin0 < minBlock then minBlock else searchMin0
        let searchMax1 := if searchMax0 > maxBlock then maxBlock else searchMax0
        s.finishSearch ipBytes searchMin1 searchMax1
    else s.finishSearch ipBytes minBlock maxBlock

/-- Lookup entry: an unparsable IP string is an invalid-IP error; otherwise
run the core on the parsed big-endian u32 value. -/
def SxGeo.getNum (s : SxGeo) (ip : Option Nat) : Except SxErr Nat :=
  match ip with
  | none => .error .invalidIp
  | some ipNum => s.getNumFrom ipNum

/-- Numeric country id for an IP: reserved ranges and misses give 0 without
error; for city databases the city record's country id field is extracted,
for country databases the payload is the id itself. -/
def SxGeo.GetCountryID (s : SxGeo) (ip : Option Nat) : Except SxErr Nat :=
  match s.getNum ip with
  | .error e => if e = .reserved then .ok 0 else .error e
  | .ok seekOrID =>
    if seekOrID = 0 then .ok 0
    else if s.header.maxCity > 0 then
      let rd := s.readData seekOrID s.header.maxCity 2
      match rd.2 with
      | some e => .error e
      | none => if umapLen rd.1 = 0 then .ok 0 else .ok (getUint8 rd.1 "country_id")
    else .ok seekOrID

/-- Two-letter ISO country code for an IP, empty on a miss or id 0. -/
def SxGeo.GetCountry (s : SxGeo) (ip : Option Nat) : Except SxErr String :=
  match s.GetCountryID ip with
  | .error e => .error e
  | .ok id => if id = 0 then .ok "" else .ok (getISO id)

/-- City and country details (no region); none on a miss, a reserved range,
or a non-city database. -/
def SxGeo.GetCity (s : SxGeo) (ip : Option Nat) : Except SxErr (Option LocationInfo) :=
  if s.header.maxCity = 0 then .ok none
  else
    match s.getNum ip with
    | .error e => if e = .reserved then .ok none else .error e
    | .ok seek =>
      if seek = 0 then .ok none
      else
        match s.parseCity seek false with
        | .error e => .error e
        | .ok info => .ok (some info)

/-- Full city, region and country details; none on a miss, a reserved
range, or a non-city database. -/
def SxGeo.GetCityFull (s : SxGeo) (ip : Option Nat) : Except SxErr (Option LocationInfo) :=
  if s.header.maxCity = 0 then .ok none
  else
    match s.getNum ip with
    | .error e => if e = .reserved then .ok none else .error e
    | .ok seek =>
      if seek = 0 then .ok none
      else
        match s.parseCity seek true with
        | .error e => .error e
        | .ok info => .ok (some info)

/-- Generic lookup: full city details for city databases, the ISO code for
country databases. -/
def SxGeo.Get (s : SxGeo) (ip : Option Nat) :
    Except SxErr (Sum (Option LocationInfo) String) :=
  if s.header.maxCity > 0 then (s.GetCityFull ip).map Sum.inl
  else (s.GetCountry ip).map Sum.inr

/-- Decode consecutive big-endian u32 values from raw index bytes. -/
def parse32 (raw : List Nat) : List Nat :=
  (List.range (raw.length / 4)).map (fun i => be32 raw (i * 4))

/-- Byte string to Lean string (the pack formats are ASCII). -/
def bytesToString (l : List Nat) : String := String.mk (l.map (fun b => Char.ofNat b))

/-- Drop trailing zero bytes (strings.TrimRight with a NUL cut set). -/
def trimRightZeros (l : List Nat) : List Nat :=
  (l.reverse.dropWhile (fun b => b = 0)).reverse

/-- Split a byte string at zero bytes (strings.Split on a NUL separator). -/
def splitOnZero : List Nat → List (List Nat)
  | [] => [[]]
  | b :: rest =>
    let r := splitOnZero rest
    if b = 0 then [] :: r
    else
      match r with
      | [] => [[b]]
      | h :: t => (b :: h) :: t

/-- Open a database from its file bytes.  Mode bit 0 is memory mode, bit 1
is batch mode.  Reads the header, the pack formats, both indexes (parsed to
arrays when batch or memory mode is on), computes the section offsets (with
the uint32 wrap of the source in the db size product), and in memory mode
loads the data sections and closes the file. -/
def NewSxGeo (file : List Nat) (mode : Nat) : Except SxErr SxGeo :=
  let memoryMode := mode % 2 = 1
  let batchMode := mode / 2 % 2 = 1
  if file.length < dbHeaderLen then .error .readFail
  else
    match parseHeader (file.take dbHeaderLen) with
    | none => .error .badHeader
    | some h =>
      let blockSize := dbBlockLenOffset + h.idLen
      let packEnd := dbHeaderLen + h.packSize
      if h.packSize > 0 ∧ file.length < packEnd then .error .readFail
      else if h.packSize = 0 ∧ h.maxCity > 0 then .error .noPackFormats
      else
        let packFormats : List String :=
          if h.packSize > 0 then
            (splitOnZero (trimRightZeros ((file.drop dbHeaderLen).take h.packSize))).map
              bytesToString
          else []
        let byteIndexSize := h.byteIndexLen * 4
        let mainIndexSize := h.mainIndexLen * 4
        let dbBegin := packEnd + byteIndexSize + mainIndexSize
        if file.length < dbBegin then .error .readFail
        else
          let rawB := (file.drop packEnd).take byteIndexSize
          let rawM := (file.drop (packEnd + byteIndexSize)).take mainIndexSize
          let useParsed := batchMode || memoryMode
          let regionsBegin := dbBegin + h.dbItems * blockSize % 4294967296
          let citiesBegin := regionsBegin + h.regionSize
          if memoryMode then
            let dbSize := h.dbItems * blockSize % 4294967296
            if file.length < dbBegin + dbSize then .error .readFail
            else if h.regionSize > 0 ∧ file.length < regionsBegin + h.regionSize then
              .error .readFail
            else if h.citySize > 0 ∧ file.length < citiesBegin + h.citySize then
              .error .readFail
            else
              .ok { f := none, header := h, packFormats := packFormats
                    dbBegin := dbBegin, regionsBegin := regionsBegin
                    citiesBegin := citiesBegin, blockSize := blockSize
                    memoryMode := memoryMode, batchMode := batchMode
                    byteIndexStr := [], mainIndexStr := []
                    byteIndexArr := parse32 rawB, mainIndexArr := parse32 rawM
                    dbData := some ((file.drop dbBegin).take dbSize)
                    regionsData :=
                      if h.regionSize > 0 then
                        some ((file.drop regionsBegin).take h.regionSize)
                      else none
                    citiesData :=
                      if h.citySize > 0 then
                        some ((file.drop citiesBegin).take h.citySize)
                      else none }
          else
            .ok { f := some file, header := h, packFormats := packFormats
                  dbBegin := dbBegin, regionsBegin := regionsBegin
                  citiesBegin := citiesBegin, blockSize := blockSize
                  memoryMode := memoryMode, batchMode := batchMode
                  byteIndexStr := if useParsed then [] else rawB
                  mainIndexStr := if useParsed then [] else rawM
                  byteIndexArr := if useParsed then parse32 rawB else []
                  mainIndexArr := if useParsed then parse32 rawM else []
                  dbData := none, regionsData := none, citiesData := none }

/-- Every byte of a byte slice is below 256. -/
def bytesBounded (l : List Nat) : Prop := ∀ b ∈ l, b < 256

/-- Every uint8 value stored in a map is below 256 (automatic in Go, an
explicit invariant of maps produced by the unpacker on byte data). -/
def u8Good (m : UMap) : Prop :=
  ∀ k v, umapFind m k = some (Value.u8 v) → v < 256

/-- Fuelled linear scan for the reference lower-bound search. -/
def lbSpecGo (arr : List Nat) (x : Nat) : Nat → Nat → Nat → Nat
  | 0, _, hi => hi + 1
  | fuel + 1, lo, hi =>
    if lo > hi then hi + 1
    else if x ≤ arr.getD lo 0 then lo
    else lbSpecGo arr x fuel (lo + 1) hi

/-- Reference linear lower-bound search: the smallest index p in the range
lo..hi with arr p at least x, and hi plus one when no entry qualifies. -/
def lbSpec (arr : List Nat) (x lo hi : Nat) : Nat :=
  lbSpecGo arr x (hi + 1 - lo) lo hi

/-- Numeric content of a stored value, when it has one: integers and finite
floats as exact rationals; infinities, NaN and strings have none. -/
def numericVal : Value → Option ℚ
  | .i8 v => some (v : ℚ)
  | .i16 v => some (v : ℚ)
  | .i32 v => some (v : ℚ)
  | .intv v => some (v : ℚ)
  | .u8 v => some (v : ℚ)
  | .u16 v => some (v : ℚ)
  | .u32 v => some (v : ℚ)
  | .uintv v => some (v : ℚ)
  | .f32 (.finite q) => some q
  | .f64 (.finite q) => some q
  | .f32 _ => none
  | .f64 _ => none
  | .str _ => none

/-- Modelled from the spec: a value of any numeric kind fits losslessly in
a uint8 when its numeric content is an integer between 0 and 255; the fit
result is that integer. -/
def specFitsU8 (v : Value) : Option Nat :=
  match numericVal v with
  | none => none
  | some q => if 0 ≤ q ∧ q ≤ 255 ∧ q.den = 1 then some q.num.toNat else none

/-- Modelled from the spec: lossless fit of a numeric value in a uint32. -/
def specFitsU32 (v : Value) : Option Nat :=
  match numericVal v with
  | none => none
  | some q => if 0 ≤ q ∧ q ≤ 4294967295 ∧ q.den = 1 then some q.num.toNat else none

/-- Well-formed stored value: each integer kind within the range of its Go
machine type (automatic in Go, an explicit invariant in this embedding). -/
def WFValue : Value → Prop
  | .u8 v => v ≤ 255
  | .i8 v => -128 ≤ v ∧ v ≤ 127
  | .u16 v => v ≤ 65535
  | .i16 v => -32768 ≤ v ∧ v ≤ 32767
  | .u32 v => v ≤ 4294967295
  | .i32 v => -2147483648 ≤ v ∧ v ≤ 2147483647
  | .intv v => -9223372036854775808 ≤ v ∧ v ≤ 9223372036854775807
  | .uintv v => v ≤ 18446744073709551615
  | _ => True

/-- ASCII letter test. -/
def isAsciiLetter (c : Char) : Bool :=
  (65 ≤ c.toNat && c.toNat ≤ 90) || (97 ≤ c.toNat && c.toNat ≤ 122)

/-- Whether a string is exactly two ASCII letters. -/
def twoAsciiLetters (s : String) : Bool :=
  match s.data with
  | [a, b] => isAsciiLetter a && isAsciiLetter b
  | _ => false

/-- Concrete valid IPv4 test value: 1.2.3.4 as a big-endian u32. -/
def queryIp : Nat := 16909060

/-- Concrete city database file whose single block carries the payload seek
100, far beyond its 4-byte cities section.  Header: byteIndexLen 2,
mainIndexLen 1, rangeBlocks 10, dbItems 1, idLen 4, maxCity 10, citySize 4,
packSize 6; formats are empty, empty, and I:id for cities. -/
def dbFileA : List Nat :=
  [83, 120, 71, 22, 0, 0, 0, 0, 2, 0, 2, 0, 1, 0, 10, 0, 0, 0, 1, 4,
   0, 0, 0, 10, 0, 0, 0, 0, 0, 0, 0, 4, 0, 0, 0, 0, 0, 0, 0, 6] ++
  [0, 0, 73, 58, 105, 100] ++
  [0, 0, 0, 0, 0, 0, 0, 1] ++
  [1, 0, 0, 0] ++
  [0, 0, 0, 0, 0, 0, 100] ++
  [1, 2, 3, 4]

/-- Concrete country database file (idLen 1, no pack formats) whose single
block carries the country id 255. -/
def dbFileB : List Nat :=
  [83, 120, 71, 22, 0, 0, 0, 0, 1, 0, 2, 0, 1, 0, 10, 0, 0, 0, 1, 1,
   0, 0, 0, 0, 0, 0, 0, 0, 0, 0, 0, 0, 0, 0, 0, 0, 0, 0, 0, 0] ++
  [0, 0, 0, 0, 0, 0, 0, 1] ++
  [1, 0, 0, 0] ++
  [0, 0, 0, 255]

/-- Concrete well-formed city database file with region and country
records.  The city record stores country id 1 and a region seek; the region
record points at a country record whose id is 2, so a full lookup overrides
the country.  Formats: T:id for countries, M:country_seek for regions,
T:country_id/M:region_seek for cities. -/
def dbFileC : List Nat :=
  [83, 120, 71, 22, 0, 0, 0, 0, 2, 0, 2, 0, 1, 0, 10, 0, 0, 0, 1, 4,
   0, 20, 0, 20, 0, 0, 0, 4, 0, 0, 0, 6, 0, 20, 0, 0, 0, 0, 0, 46] ++
  [84, 58, 105, 100] ++ [0] ++
  [77, 58, 99, 111, 117, 110, 116, 114, 121, 95, 115, 101, 101, 107] ++ [0] ++
  [84, 58, 99, 111, 117, 110, 116, 114, 121, 95, 105, 100, 47,
   77, 58, 114, 101, 103, 105, 111, 110, 95, 115, 101, 101, 107] ++
  [0, 0, 0, 0, 0, 0, 0, 1] ++
  [1, 0, 0, 0] ++
  [0, 0, 0, 0, 0, 0, 1] ++
  [0, 5, 0, 0] ++
  [0, 1, 1, 0, 0, 2]

/-- Concrete city database file whose cities section is 2 bytes while the
city format needs 4: the city read is truncated mid-field. -/
def dbFileD : List Nat :=
  [83, 120, 71, 22, 0, 0, 0, 0, 2, 0, 2, 0, 1, 0, 10, 0, 0, 0, 1, 4,
   0, 0, 0, 4, 0, 0, 0, 0, 0, 0, 0, 2, 0, 0, 0, 0, 0, 0, 0, 6] ++
  [0, 0, 73, 58, 105, 100] ++
  [0, 0, 0, 0, 0, 0, 0, 1] ++
  [1, 0, 0, 0] ++
  [0, 0, 0, 0, 0, 0, 1] ++
  [9, 9]

/-- Concrete resident-mode engine whose cities buffer is the two bytes 7 7
and whose city format needs four bytes. -/
def sTrunc : SxGeo :=
  { f := none
    header := { version := 22, timestamp := 0, dbType := 2, charset := 0
                byteIndexLen := 2, mainIndexLen := 1, rangeBlocks := 10
                dbItems := 1, idLen := 4, maxRegion := 0, maxCity := 4
                regionSize := 0, citySize := 2, maxCountry := 0
                countrySize := 0, packSize := 6 }
    packFormats := ["", "", "I:id"]
    dbBegin := 58, regionsBegin := 65, citiesBegin := 65, blockSize := 7
    memoryMode := true, batchMode := false
    byteIndexStr := [], mainIndexStr := []
    byteIndexArr := [0, 1], mainIndexArr := [16777216]
    dbData := some [0, 0, 0, 0, 0, 0, 1]
    regionsData := none, citiesData := some [7, 7] }

/-- Concrete resident-mode country database engine (idLen 1, payload 7). -/
def sCountry : SxGeo :=
  { f := none
    header := { version := 22, timestamp := 0, dbType := 1, charset := 0
                byteIndexLen := 2, mainIndexLen := 1, rangeBlocks := 10
                dbItems := 1, idLen := 1, maxRegion := 0, maxCity := 0
                regionSize := 0, citySize := 0, maxCountry := 0
                countrySize := 0, packSize := 0 }
    packFormats := []
    dbBegin := 52, regionsBegin := 56, citiesBegin := 56, blockSize := 4
    memoryMode := true, batchMode := false
    byteIndexStr := [], mainIndexStr := []
    byteIndexArr := [0, 1], mainIndexArr := [16777216]
    dbData := some [0, 0, 0, 7]
    regionsData := none, citiesData := none }

/-- Location result of the basic city lookup on dbFileC. -/
def locBasic : LocationInfo :=
  { city := some { id := 0, lat := .finite 0, lon := .finite 0, nameRu := [],
                   nameEn := [], regionSeek := 1, countryID := 1 }
    region := none
    country := some { id := 1, iso := "AP", lat := .finite 0, lon := .finite 0,
                      nameRu := [], nameEn := [] } }

/-- Location result of the full city lookup on dbFileC. -/
def locFull : LocationInfo :=
  { city := some { id := 0, lat := .finite 0, lon := .finite 0, nameRu := [],
                   nameEn := [], regionSeek := 1, countryID := 1 }
    region := some { id := 0, nameRu := [], nameEn := [], iso := [], countrySeek := 5 }
    country := some { id := 2, iso := "EU", lat := .finite 0, lon := .finite 0,
                      nameRu := [], nameEn := [] } }

/-- Concrete resident-mode city database engine, the state NewSxGeo builds
from dbFileC in memory mode. -/
def sCityC : SxGeo :=
  { f := none
    header := { version := 22, timestamp := 0, dbType := 2, charset := 0
                byteIndexLen := 2, mainIndexLen := 1, rangeBlocks := 10
                dbItems := 1, idLen := 4, maxRegion := 20, maxCity := 20
                regionSize := 4, citySize := 6, maxCountry := 20
                countrySize := 0, packSize := 46 }
    packFormats := ["T:id", "M:country_seek", "T:country_id/M:region_seek"]
    dbBegin := 98, regionsBegin := 105, citiesBegin := 109, blockSize := 7
    memoryMode := true, batchMode := false
    byteIndexStr := [], mainIndexStr := []
    byteIndexArr := [0, 1], mainIndexArr := [16777216]
    dbData := some [0, 0, 0, 0, 0, 0, 1]
    regionsData := some [0, 5, 0, 0]
    citiesData := some [0, 1, 1, 0, 0, 2] }

/-- Concrete resident-mode city engine whose single city record has no
region seek field (so it decodes as zero). -/
def sCityZero : SxGeo :=
  { f := none
    header := { version := 22, timestamp := 0, dbType := 2, charset := 0
                byteIndexLen := 2, mainIndexLen := 1, rangeBlocks := 10
                dbItems := 1, idLen := 1, maxRegion := 0, maxCity := 1
                regionSize := 0, citySize := 1, maxCountry := 0
                countrySize := 0, packSize := 15 }
    packFormats := ["", "", "T:country_id"]
    dbBegin := 67, regionsBegin := 71, citiesBegin := 71, blockSize := 4
    memoryMode := true, batchMode := false
    byteIndexStr := [], mainIndexStr := []
    byteIndexArr := [0, 1], mainIndexArr := [16777216]
    dbData := some [0, 0, 0, 1]
    regionsData := none, citiesData := some [3] }

/-- Concrete file-mode city database engine over dbFileC: the same header
and offsets as the resident engine, with the raw index bytes kept and the
file retained instead of the resident buffers. -/
def sCityCF : SxGeo :=
  { f := some dbFileC
    header := { version := 22, timestamp := 0, dbType := 2, charset := 0
                byteIndexLen := 2, mainIndexLen := 1, rangeBlocks := 10
                dbItems := 1, idLen := 4, maxRegion := 20, maxCity := 20
                regionSize := 4, citySize := 6, maxCountry := 20
                countrySize := 0, packSize := 46 }
    packFormats := ["T:id", "M:country_seek", "T:country_id/M:region_seek"]
    dbBegin := 98, regionsBegin := 105, citiesBegin := 109, blockSize := 7
    memoryMode := false, batchMode := false
    byteIndexStr := [0, 0, 0, 0, 0, 0, 0, 1], mainIndexStr := [1, 0, 0, 0]
    byteIndexArr := [], mainIndexArr := []
    dbData := none, regionsData := none, citiesData := none }

set_option maxRecDepth 100000

/-- C1: counterexample.  On a database whose city record is truncated
mid-field, the unpacker signals an error and that truncation error escapes
the record resolver (parseCity) all the way to the public GetCity caller,
refuting both halves of the claim. -/
theorem c1Counterexample :
    (NewSxGeo dbFileD 1).bind (fun s => s.GetCity (some queryIp)) =
      .error (.cityRead (.unpackE .truncated)) := rfl

/-- C1 (amended): exhaustion exactly at a field boundary returns the fields
decoded so far without error; a fixed-width field truncated mid-field
returns the partial mapping together with an error; and a city-read error
(truncation included) escapes parseCity as an error to its caller. -/
theorem c1Amended :
    (∀ (p : String) (ps : List String) (data : List Nat) (offset : Nat) (acc : UMap),
        offset ≥ data.length → unpackParts (p :: ps) data offset acc = (acc, none)) ∧
    (∀ b0 b1 : Nat, (unpack "I:id" [b0, b1]).2 = some UnpackErr.truncated) ∧
    (∀ (s : SxGeo) (seek : Nat) (full : Bool) (e : SxErr) (m : UMap),
        2 < s.packFormats.length → s.packFormats.getD 2 "" ≠ "" →
        s.readData seek s.header.maxCity 2 = (m, some e) →
        s.parseCity seek full = .error (.cityRead e)) := by
  refine ⟨?_, ?_, ?_⟩
  · intro p ps data offset acc h
    unfold unpackParts
    rw [if_pos h]
  · intro b0 b1
    rfl
  · intro s seek full e m hlen hfmt hread
    unfold SxGeo.parseCity
    rw [if_neg (by push_neg; exact ⟨by omega, hfmt⟩), hread]

/-- C1 (amended) witness at concrete inputs. -/
theorem c1AmendedWitness :
    unpackParts ["T:a"] [5] 1 [] = ([], none) ∧
    (unpack "I:id" [0, 1]).2 = some UnpackErr.truncated ∧
    sTrunc.parseCity 1 false = .error (.cityRead (.unpackE .truncated)) :=
  ⟨c1Amended.1 "T:a" [] [5] 1 [] (by decide),
   c1Amended.2.1 0 1,
   c1Amended.2.2 sTrunc 1 false (.unpackE .truncated) [] (by decide) (by decide) rfl⟩

/-- C2: for every engine state and every valid IPv4 value below 2 to the 32
whose first octet is 0, 10, 127, or at least byteIndexLen, all five public
query operations return their not-found value with no error. -/
theorem c2ReservedNotFound (s : SxGeo) (n : Nat) (hn : n < 4294967296)
    (hb : n / 16777216 = 0 ∨ n / 16777216 = 10 ∨ n / 16777216 = 127 ∨
      n / 16777216 ≥ s.header.byteIndexLen) :
    s.GetCountryID (some n) = .ok 0 ∧
    s.GetCountry (some n) = .ok "" ∧
    s.GetCity (some n) = .ok none ∧
    s.GetCityFull (some n) = .ok none ∧
    s.Get (some n) =
      (if s.header.maxCity > 0 then .ok (Sum.inl none) else .ok (Sum.inr "")) := by
  have hmod : n / 16777216 % 256 = n / 16777216 := Nat.mod_eq_of_lt (by omega)
  have hres : s.getNumFrom n = .error .reserved := by
    unfold SxGeo.getNumFrom
    simp only [byteAt, List.getD_cons_zero, hmod]
    rw [if_pos hb]
  have hget : s.getNum (some n) = .error .reserved := hres
  have hid : s.GetCountryID (some n) = .ok 0 := by
    unfold SxGeo.GetCountryID
    rw [hget]
    rfl
  have hcity : s.GetCity (some n) = .ok none := by
    unfold SxGeo.GetCity
    by_cases hc : s.header.maxCity = 0
    · rw [if_pos hc]
    · rw [if_neg hc, hget]
      rfl
  have hfull : s.GetCityFull (some n) = .ok none := by
    unfold SxGeo.GetCityFull
    by_cases hc : s.header.maxCity = 0
    · rw [if_pos hc]
    · rw [if_neg hc, hget]
      rfl
  have hiso : s.GetCountry (some n) = .ok "" := by
    unfold SxGeo.GetCountry
    rw [hid]
    rfl
  refine ⟨hid, hiso, hcity, hfull, ?_⟩
  unfold SxGeo.Get
  by_cases hc : s.header.maxCity > 0
  · rw [if_pos hc, if_pos hc, hfull]
    rfl
  · rw [if_neg hc, if_neg hc, hiso]
    rfl

/-- C2 witness: 10.0.0.1 on a concrete country database. -/
theorem c2ReservedNotFoundWitness :
    sCountry.GetCountryID (some 167772161) = .ok 0 ∧
    sCountry.GetCountry (some 167772161) = .ok "" ∧
    sCountry.GetCity (some 167772161) = .ok none ∧
    sCountry.GetCityFull (some 167772161) = .ok none ∧
    sCountry.Get (some 167772161) =
      (if sCountry.header.maxCity > 0 then .ok (Sum.inl none) else .ok (Sum.inr "")) :=
  c2ReservedNotFound sCountry 167772161 (by decide) (by decide)

/-- C3: counterexample.  Over the same database file, whose single block
carries a payload seek beyond the cities section, the MEMORY-mode engine
returns an invalid-seek error from GetCountryID while the FILE-mode engine
returns 0 with no error: the two modes do not give identical results. -/
theorem c3Counterexample :
    (NewSxGeo dbFileA 1).bind (fun s => s.GetCountryID (some queryIp)) =
        .error .invalidSeek ∧
    (NewSxGeo dbFileA 0).bind (fun s => s.GetCountryID (some queryIp)) = .ok 0 :=
  ⟨rfl, rfl⟩

/-- C7: counterexample.  A country database can return id 255, whose entry
in the static table is the string Unknown, not a two-letter ASCII code. -/
theorem c7Counterexample :
    (NewSxGeo dbFileB 1).bind (fun s => s.GetCountryID (some queryIp)) = .ok 255 ∧
    getISO 255 = "Unknown" ∧
    twoAsciiLetters (getISO 255) = false :=
  ⟨rfl, rfl, rfl⟩

/-- C8: counterexample.  On a database whose region record points at a
country record with a different id, the basic and the full city lookup
agree on the City field but return different Country fields. -/
theorem c8Counterexample :
    (NewSxGeo dbFileC 1).bind (fun s => s.GetCity (some queryIp)) = .ok (some locBasic) ∧
    (NewSxGeo dbFileC 1).bind (fun s => s.GetCityFull (some queryIp)) = .ok (some locFull) ∧
    locBasic.city = locFull.city ∧
    locBasic.country ≠ locFull.country :=
  ⟨rfl, rfl, rfl, by decide⟩

/-- C9: counterexample.  In resident mode a read whose offset lies strictly
beyond the section length returns an error, not a zero-length result. -/
theorem c9Counterexample :
    sTrunc.readData 3 2 2 = ([], some SxErr.invalidSeek) := rfl

/-- C9 (amended): the resident byte fetch never fails for offsets at most
the buffer length, clamping the range to the buffer and returning a
zero-length result at the boundary; an offset strictly beyond the buffer is
an error, which readData surfaces. -/
theorem c9Amended (src : List Nat) (seek maxSize : Nat) :
    (seek ≤ src.length →
      memFetch src seek maxSize =
        .ok ((src.drop seek).take (min maxSize (src.length - seek)))) ∧
    (seek = src.length → memFetch src seek maxSize = .ok []) ∧
    (seek > src.length → memFetch src seek maxSize = .error SxErr.invalidSeek) ∧
    (∀ (s : SxGeo) (cd : List Nat), s.memoryMode = true → s.citiesData = some cd →
      2 < s.packFormats.length → s.packFormats.getD 2 "" ≠ "" → maxSize ≠ 0 →
      seek > cd.length → s.readData seek maxSize 2 = ([], some SxErr.invalidSeek)) := by
  refine ⟨?_, ?_, ?_, ?_⟩
  · intro hle
    unfold memFetch
    rw [if_neg (by omega)]
    by_cases hdeg : seek ≥ (if seek + maxSize > src.length then src.length else seek + maxSize)
    · rw [if_pos hdeg]
      have : min maxSize (src.length - seek) = 0 ∨ src.length ≤ seek := by
        split at hdeg <;> omega
      rcases this with h | h
      · rw [h, List.take_zero]
      · rw [List.drop_eq_nil_of_le h, List.take_nil]
    · rw [if_neg hdeg]
      have : (if seek + maxSize > src.length then src.length else seek + maxSize) - seek =
          min maxSize (src.length - seek) := by
        split <;> omega
      rw [this]
  · intro heq
    unfold memFetch
    rw [if_neg (by omega), if_pos (by split <;> omega)]
  · intro hgt
    unfold memFetch
    rw [if_pos hgt]
  · intro s cd hm hc hlen hfmt hms hgt
    unfold SxGeo.readData
    rw [if_neg (by push_neg; exact ⟨by omega, hfmt⟩), if_neg hms, if_pos hm,
      if_neg (by omega), if_neg (by omega), if_neg (by omega)]
    simp only [hc]
    have hfe : memFetch cd seek maxSize = .error SxErr.invalidSeek := by
      unfold memFetch
      rw [if_pos hgt]
    rw [hfe]

/-- C9 (amended) witness at concrete inputs. -/
theorem c9AmendedWitness :
    (memFetch [1, 2, 3] 1 5 = .ok [2, 3]) ∧
    (memFetch [1, 2, 3] 3 5 = .ok []) ∧
    (memFetch [1, 2, 3] 4 5 = .error SxErr.invalidSeek) ∧
    (sTrunc.readData 3 2 2 = ([], some SxErr.invalidSeek)) :=
  ⟨(c9Amended [1, 2, 3] 1 5).1 (by decide),
   (c9Amended [1, 2, 3] 3 5).2.1 (by decide),
   (c9Amended [1, 2, 3] 4 5).2.2.1 (by decide),
   (c9Amended [7, 7] 3 2).2.2.2 sTrunc [7, 7] rfl rfl (by decide) (by decide)
     (by decide) (by decide)⟩

/-- C10: on a country database (maxCity 0) both city entry points return a
nil LocationInfo and no error for every input, parseable or not, because
the maxCity check precedes IP parsing. -/
theorem c10CountryDbNilCity (s : SxGeo) (ip : Option Nat)
    (h : s.header.maxCity = 0) :
    s.GetCity ip = .ok none ∧ s.GetCityFull ip = .ok none := by
  constructor
  · unfold SxGeo.GetCity
    rw [if_pos h]
  · unfold SxGeo.GetCityFull
    rw [if_pos h]

/-- C10 witness: an unparseable IP string (none) on a concrete country
database still gives nil results and nil errors. -/
theorem c10CountryDbNilCityWitness :
    sCountry.GetCity none = .ok none ∧ sCountry.GetCityFull none = .ok none :=
  c10CountryDbNilCity sCountry none rfl

/-- C4: the header decoder succeeds exactly when the slice is at least 40
bytes, carries the SxG signature, all critical fields decode non-zero, and
the id width is at most 4; on success every header field equals the
big-endian decoding at its documented position. -/
theorem c4HeaderDecoder (data : List Nat) :
    ((parseHeader data).isSome ↔
      (dbHeaderLen ≤ data.length ∧
       byteAt data 0 = 83 ∧ byteAt data 1 = 120 ∧ byteAt data 2 = 71 ∧
       byteAt data 10 ≠ 0 ∧ be16 data 11 ≠ 0 ∧ be16 data 13 ≠ 0 ∧
       be32 data 15 ≠ 0 ∧ byteAt data 19 ≠ 0 ∧ byteAt data 19 ≤ 4)) ∧
    (∀ h, parseHeader data = some h →
      h.version = byteAt data 3 ∧ h.timestamp = be32 data 4 ∧
      h.dbType = byteAt data 8 ∧ h.charset = byteAt data 9 ∧
      h.byteIndexLen = byteAt data 10 ∧ h.mainIndexLen = be16 data 11 ∧
      h.rangeBlocks = be16 data 13 ∧ h.dbItems = be32 data 15 ∧
      h.idLen = byteAt data 19 ∧ h.maxRegion = be16 data 20 ∧
      h.maxCity = be16 data 22 ∧ h.regionSize = be32 data 24 ∧
      h.citySize = be32 data 28 ∧ h.maxCountry = be16 data 32 ∧
      h.countrySize = be32 data 34 ∧ h.packSize = be16 data 38) := by
  unfold parseHeader
  constructor
  · by_cases h1 : data.length < dbHeaderLen
    · rw [if_pos h1]
      simp only [Option.isSome_none, Bool.false_eq_true, false_iff, not_and]
      intro hc
      omega
    · rw [if_neg h1]
      by_cases h2 : byteAt data 0 = 83 ∧ byteAt data 1 = 120 ∧ byteAt data 2 = 71
      · rw [if_neg (not_not_intro h2)]
        show ((if byteAt data 10 = 0 ∨ be16 data 11 = 0 ∨ be16 data 13 = 0 ∨
            be32 data 15 = 0 ∨ byteAt data 19 = 0 ∨ byteAt data 19 > 4 then none
          else some
            { version := byteAt data 3, timestamp := be32 data 4, dbType := byteAt data 8
              charset := byteAt data 9, byteIndexLen := byteAt data 10
              mainIndexLen := be16 data 11, rangeBlocks := be16 data 13
              dbItems := be32 data 15, idLen := byteAt data 19, maxRegion := be16 data 20
              maxCity := be16 data 22, regionSize := be32 data 24, citySize := be32 data 28
              maxCountry := be16 data 32, countrySize := be32 data 34
              packSize := be16 data 38 } : Option Header)).isSome = true ↔ _
        by_cases h3 : byteAt data 10 = 0 ∨ be16 data 11 = 0 ∨ be16 data 13 = 0 ∨
            be32 data 15 = 0 ∨ byteAt data 19 = 0 ∨ byteAt data 19 > 4
        · rw [if_pos h3]
          simp only [Option.isSome_none, Bool.false_eq_true, false_iff]
          intro hc
          rcases hc with ⟨-, -, -, -, h5, h6, h7, h8, h9, h10⟩
          omega
        · rw [if_neg h3]
          simp only [not_or] at h3
          simp only [Option.isSome_some, true_iff]
          exact ⟨by omega, h2.1, h2.2.1, h2.2.2, h3.1, h3.2.1, h3.2.2.1, h3.2.2.2.1,
            h3.2.2.2.2.1, by omega⟩
      · rw [if_pos h2]
        simp only [Option.isSome_none, Bool.false_eq_true, false_iff]
        intro hc
        exact h2 ⟨hc.2.1, hc.2.2.1, hc.2.2.2.1⟩
  · intro h hh
    by_cases h1 : data.length < dbHeaderLen
    · rw [if_pos h1] at hh
      exact absurd hh (by simp)
    · rw [if_neg h1] at hh
      by_cases h2 : byteAt data 0 = 83 ∧ byteAt data 1 = 120 ∧ byteAt data 2 = 71
      · rw [if_neg (not_not_intro h2)] at hh
        have hh2 : (if byteAt data 10 = 0 ∨ be16 data 11 = 0 ∨ be16 data 13 = 0 ∨
            be32 data 15 = 0 ∨ byteAt data 19 = 0 ∨ byteAt data 19 > 4 then none
          else some
            { version := byteAt data 3, timestamp := be32 data 4, dbType := byteAt data 8
              charset := byteAt data 9, byteIndexLen := byteAt data 10
              mainIndexLen := be16 data 11, rangeBlocks := be16 data 13
              dbItems := be32 data 15, idLen := byteAt data 19, maxRegion := be16 data 20
              maxCity := be16 data 22, regionSize := be32 data 24, citySize := be32 data 28
              maxCountry := be16 data 32, countrySize := be32 data 34
              packSize := be16 data 38 } : Option Header) = some h := hh
        by_cases h3 : byteAt data 10 = 0 ∨ be16 data 11 = 0 ∨ be16 data 13 = 0 ∨
            be32 data 15 = 0 ∨ byteAt data 19 = 0 ∨ byteAt data 19 > 4
        · rw [if_pos h3] at hh2
          exact absurd hh2 (by simp)
        · rw [if_neg h3] at hh2
          cases hh2
          exact ⟨rfl, rfl, rfl, rfl, rfl, rfl, rfl, rfl, rfl, rfl, rfl, rfl, rfl, rfl,
            rfl, rfl⟩
      · rw [if_pos h2] at hh
        exact absurd hh (by simp)

/-- C4 witness: a concrete valid 40-byte header decodes to its fields. -/
theorem c4HeaderDecoderWitness :
    (parseHeader (dbFileB.take 40)).isSome = true ∧
    (∀ h, parseHeader (dbFileB.take 40) = some h → h.idLen = byteAt (dbFileB.take 40) 19) :=
  ⟨((c4HeaderDecoder (dbFileB.take 40)).1).mpr (by decide),
   fun h hh => ((c4HeaderDecoder (dbFileB.take 40)).2 h hh).2.2.2.2.2.2.2.2.1⟩

/-- C6: counterexample.  A stored int16 value 5 fits losslessly in a uint8
(the spec-modelled fit yields 5), yet getUint8 returns 0: the getter does
not coerce every numeric kind that fits. -/
theorem c6Counterexample :
    specFitsU8 (Value.i16 5) = some 5 ∧
    getUint8 [("country_id", Value.i16 5)] "country_id" = 0 :=
  ⟨rfl, rfl⟩

/-- Characterisation of the non-negative, bounded, integral float guard the
getters use. -/
theorem fvalGuard_iff (v : FVal) (m : Nat) :
    (v.ge0 && v.leN m && v.whole) = true ↔
    ∃ q, v = .finite q ∧ 0 ≤ q ∧ q ≤ (m : ℚ) ∧ q.den = 1 := by
  cases v with
  | finite q => simp [FVal.ge0, FVal.leN, FVal.whole, and_assoc]
  | inf b => cases b <;> simp [FVal.ge0, FVal.leN, FVal.whole]
  | nan => simp [FVal.ge0, FVal.leN, FVal.whole]

/-- Truncating conversion of an integral rational equals its numerator. -/
theorem fval_toNatTrunc_int (q : ℚ) (hden : q.den = 1) :
    (FVal.finite q).toNatTrunc = q.num.toNat := by
  simp only [FVal.toNatTrunc]
  unfold Rat.floor
  rw [if_pos hden]

/-- C6 (amended): the getters coerce exactly the kinds the source
enumerates.  A value that fits losslessly is returned by getUint8 unless
its kind is int16, int32 or uint (returned as zero), and by getUint32
unless its kind is int8, int16 or uint; a value that does not fit gives
zero, except a negative int8 under getUint8, which is returned as its
two's-complement byte; getFloat converts every numeric kind exactly and
getString returns exactly the stored strings. -/
theorem c6Amended :
    (∀ (m : UMap) (k : String) (v : Value) (n : Nat), umapFind m k = some v →
      WFValue v → specFitsU8 v = some n →
      (getUint8 m k = n ∨ (∃ w, v = .i16 w) ∨ (∃ w, v = .i32 w) ∨ (∃ w, v = .uintv w))) ∧
    (∀ (m : UMap) (k : String) (v : Value), umapFind m k = some v →
      WFValue v → specFitsU8 v = none →
      (getUint8 m k = 0 ∨ ∃ w, v = .i8 w ∧ w < 0 ∧ getUint8 m k = (w + 256).toNat)) ∧
    (∀ (m : UMap) (k : String) (w : Int), umapFind m k = some (Value.i16 w) →
      getUint8 m k = 0) ∧
    (∀ (m : UMap) (k : String) (v : Value) (n : Nat), umapFind m k = some v →
      WFValue v → specFitsU32 v = some n →
      (getUint32 m k = n ∨ (∃ w, v = .i8 w) ∨ (∃ w, v = .i16 w) ∨ (∃ w, v = .uintv w))) ∧
    (∀ (m : UMap) (k : String) (v : Value), umapFind m k = some v →
      WFValue v → specFitsU32 v = none → getUint32 m k = 0) ∧
    (∀ (m : UMap) (k : String) (v : Value) (q : ℚ), umapFind m k = some v →
      numericVal v = some q → getFloat m k = .finite q) ∧
    (∀ (m : UMap) (k : String) (s1 : List Nat), umapFind m k = some (Value.str s1) →
      getString m k = s1) := by
  refine ⟨?_, ?_, ?_, ?_, ?_, ?_, ?_⟩
  · intro m k v n hfind hwf hfit
    cases v with
    | i16 w => exact Or.inr (Or.inl ⟨w, rfl⟩)
    | i32 w => exact Or.inr (Or.inr (Or.inl ⟨w, rfl⟩))
    | uintv w => exact Or.inr (Or.inr (Or.inr ⟨w, rfl⟩))
    | u8 w =>
      left
      simp only [specFitsU8, numericVal] at hfit
      split at hfit
      · simp only [Option.some_inj] at hfit
        simp only [getUint8, hfind]
        simp only [Rat.num_natCast, Int.toNat_natCast] at hfit
        omega
      · exact absurd hfit (by simp)
    | i8 w =>
      left
      simp only [specFitsU8, numericVal] at hfit
      split at hfit
      · next hcond =>
        simp only [Option.some_inj] at hfit
        simp only [Rat.num_intCast] at hfit
        have h0 : (0 : ℚ) ≤ (w : ℚ) := hcond.1
        have h255 : (w : ℚ) ≤ 255 := hcond.2.1
        rw [Int.cast_nonneg] at h0
        have hw255 : w ≤ 255 := by exact_mod_cast h255
        simp only [getUint8, hfind, u8ofI8]
        rw [Int.emod_eq_of_lt h0 (by omega)]
        omega
      · exact absurd hfit (by simp)
    | intv w =>
      left
      simp only [specFitsU8, numericVal] at hfit
      split at hfit
      · next hcond =>
        simp only [Option.some_inj] at hfit
        simp only [Rat.num_intCast] at hfit
        have h0 : (0 : ℚ) ≤ (w : ℚ) := hcond.1
        have h255 : (w : ℚ) ≤ 255 := hcond.2.1
        rw [Int.cast_nonneg] at h0
        have hw255 : w ≤ 255 := by exact_mod_cast h255
        simp only [getUint8, hfind]
        rw [if_pos ⟨h0, hw255⟩]
        omega
      · exact absurd hfit (by simp)
    | u16 w =>
      left
      simp only [specFitsU8, numericVal] at hfit
      split at hfit
      · next hcond =>
        simp only [Option.some_inj] at hfit
        simp only [Rat.num_natCast, Int.toNat_natCast] at hfit
        have h255 : (w : ℚ) ≤ 255 := hcond.2.1
        have hw255 : w ≤ 255 := by exact_mod_cast h255
        simp only [getUint8, hfind]
        rw [if_pos hw255]
        omega
      · exact absurd hfit (by simp)
    | u32 w =>
      left
      simp only [specFitsU8, numericVal] at hfit
      split at hfit
      · next hcond =>
        simp only [Option.some_inj] at hfit
        simp only [Rat.num_natCast, Int.toNat_natCast] at hfit
        have h255 : (w : ℚ) ≤ 255 := hcond.2.1
        have hw255 : w ≤ 255 := by exact_mod_cast h255
        simp only [getUint8, hfind]
        rw [if_pos hw255]
        omega
      · exact absurd hfit (by simp)
    | f64 fv =>
      left
      cases fv with
      | finite q =>
        simp only [specFitsU8, numericVal] at hfit
        split at hfit
        · next hcond =>
          simp only [Option.some_inj] at hfit
          simp only [getUint8, hfind]
          rw [if_pos ((fvalGuard_iff (.finite q) 255).mpr
            ⟨q, rfl, hcond.1, by exact_mod_cast hcond.2.1, hcond.2.2⟩)]
          rw [fval_toNatTrunc_int q hcond.2.2]
          omega
        · exact absurd hfit (by simp)
      | inf b => simp [specFitsU8, numericVal] at hfit
      | nan => simp [specFitsU8, numericVal] at hfit
    | f32 fv =>
      left
      cases fv with
      | finite q =>
        simp only [specFitsU8, numericVal] at hfit
        split at hfit
        · next hcond =>
          simp only [Option.some_inj] at hfit
          simp only [getUint8, hfind]
          rw [if_pos ((fvalGuard_iff (.finite q) 255).mpr
            ⟨q, rfl, hcond.1, by exact_mod_cast hcond.2.1, hcond.2.2⟩)]
          rw [fval_toNatTrunc_int q hcond.2.2]
          omega
        · exact absurd hfit (by simp)
      | inf b => simp [specFitsU8, numericVal] at hfit
      | nan => simp [specFitsU8, numericVal] at hfit
    | str s1 => simp [specFitsU8, numericVal] at hfit
  · intro m k v hfind hwf hfit
    cases v with
    | i16 w => exact Or.inl (by simp [getUint8, hfind])
    | i32 w => exact Or.inl (by simp [getUint8, hfind])
    | uintv w => exact Or.inl (by simp [getUint8, hfind])
    | str s1 => exact Or.inl (by simp [getUint8, hfind])
    | u8 w =>
      exfalso
      simp only [WFValue] at hwf
      simp only [specFitsU8, numericVal] at hfit
      rw [if_pos ⟨by positivity, by exact_mod_cast hwf, Rat.den_natCast w⟩] at hfit
      exact absurd hfit (by simp)
    | i8 w =>
      simp only [WFValue] at hwf
      simp only [specFitsU8, numericVal] at hfit
      by_cases hneg : w < 0
      · refine Or.inr ⟨w, rfl, hneg, ?_⟩
        simp only [getUint8, hfind, u8ofI8]
        have : w % 256 = w + 256 := by omega
        rw [this]
      · exfalso
        rw [if_pos ⟨by exact_mod_cast (by omega : (0:ℤ) ≤ w),
          by exact_mod_cast (by omega : w ≤ (255:ℤ)), Rat.den_intCast w⟩] at hfit
        exact absurd hfit (by simp)
    | intv w =>
      left
      simp only [specFitsU8, numericVal] at hfit
      simp only [getUint8, hfind]
      rw [if_neg]
      intro hc
      rw [if_pos ⟨by exact_mod_cast hc.1, by exact_mod_cast hc.2,
        Rat.den_intCast w⟩] at hfit
      exact absurd hfit (by simp)
    | u16 w =>
      left
      simp only [specFitsU8, numericVal] at hfit
      simp only [getUint8, hfind]
      rw [if_neg]
      intro hc
      rw [if_pos ⟨by positivity, by exact_mod_cast hc, Rat.den_natCast w⟩] at hfit
      exact absurd hfit (by simp)
    | u32 w =>
      left
      simp only [specFitsU8, numericVal] at hfit
      simp only [getUint8, hfind]
      rw [if_neg]
      intro hc
      rw [if_pos ⟨by positivity, by exact_mod_cast hc, Rat.den_natCast w⟩] at hfit
      exact absurd hfit (by simp)
    | f64 fv =>
      left
      simp only [getUint8, hfind]
      rw [if_neg]
      intro hg
      rcases (fvalGuard_iff fv 255).mp hg with ⟨q, hq, h0, h255, hden⟩
      subst hq
      simp only [specFitsU8, numericVal] at hfit
      rw [if_pos ⟨h0, by exact_mod_cast h255, hden⟩] at hfit
      exact absurd hfit (by simp)
    | f32 fv =>
      left
      simp only [getUint8, hfind]
      rw [if_neg]
      intro hg
      rcases (fvalGuard_iff fv 255).mp hg with ⟨q, hq, h0, h255, hden⟩
      subst hq
      simp only [specFitsU8, numericVal] at hfit
      rw [if_pos ⟨h0, by exact_mod_cast h255, hden⟩] at hfit
      exact absurd hfit (by simp)
  · intro m k w hfind
    simp [getUint8, hfind]
  · intro m k v n hfind hwf hfit
    cases v with
    | i8 w => exact Or.inr (Or.inl ⟨w, rfl⟩)
    | i16 w => exact Or.inr (Or.inr (Or.inl ⟨w, rfl⟩))
    | uintv w => exact Or.inr (Or.inr (Or.inr ⟨w, rfl⟩))
    | u32 w =>
      left
      simp only [specFitsU32, numericVal] at hfit
      split at hfit
      · simp only [Option.some_inj] at hfit
        simp only [getUint32, hfind]
        simp only [Rat.num_natCast, Int.toNat_natCast] at hfit
        omega
      · exact absurd hfit (by simp)
    | i32 w =>
      left
      simp only [specFitsU32, numericVal] at hfit
      split at hfit
      · next hcond =>
        simp only [Option.some_inj] at hfit
        simp only [Rat.num_intCast] at hfit
        have h0 : (0 : ℚ) ≤ (w : ℚ) := hcond.1
        rw [Int.cast_nonneg] at h0
        simp only [getUint32, hfind]
        rw [if_pos h0]
        omega
      · exact absurd hfit (by simp)
    | intv w =>
      left
      simp only [specFitsU32, numericVal] at hfit
      split at hfit
      · next hcond =>
        simp only [Option.some_inj] at hfit
        simp only [Rat.num_intCast] at hfit
        have h0 : (0 : ℚ) ≤ (w : ℚ) := hcond.1
        have hub : (w : ℚ) ≤ 4294967295 := hcond.2.1
        rw [Int.cast_nonneg] at h0
        have hwub : w ≤ 4294967295 := by exact_mod_cast hub
        simp only [getUint32, hfind]
        rw [if_pos ⟨h0, hwub⟩]
        omega
      · exact absurd hfit (by simp)
    | u16 w =>
      left
      simp only [specFitsU32, numericVal] at hfit
      split at hfit
      · simp only [Option.some_inj] at hfit
        simp only [Rat.num_natCast, Int.toNat_natCast] at hfit
        simp only [getUint32, hfind]
        omega
      · exact absurd hfit (by simp)
    | u8 w =>
      left
      simp only [specFitsU32, numericVal] at hfit
      split at hfit
      · simp only [Option.some_inj] at hfit
        simp only [Rat.num_natCast, Int.toNat_natCast] at hfit
        simp only [getUint32, hfind]
        omega
      · exact absurd hfit (by simp)
    | f64 fv =>
      left
      cases fv with
      | finite q =>
        simp only [specFitsU32, numericVal] at hfit
        split at hfit
        · next hcond =>
          simp only [Option.some_inj] at hfit
          simp only [getUint32, hfind]
          rw [if_pos ((fvalGuard_iff (.finite q) 4294967295).mpr
            ⟨q, rfl, hcond.1, by exact_mod_cast hcond.2.1, hcond.2.2⟩)]
          rw [fval_toNatTrunc_int q hcond.2.2]
          omega
        · exact absurd hfit (by simp)
      | inf b => simp [specFitsU32, numericVal] at hfit
      | nan => simp [specFitsU32, numericVal] at hfit
    | f32 fv =>
      left
      cases fv with
      | finite q =>
        simp only [specFitsU32, numericVal] at hfit
        split at hfit
        · next hcond =>
          simp only [Option.some_inj] at hfit
          simp only [getUint32, hfind]
          rw [if_pos ((fvalGuard_iff (.finite q) 4294967295).mpr
            ⟨q, rfl, hcond.1, by exact_mod_cast hcond.2.1, hcond.2.2⟩)]
          rw [fval_toNatTrunc_int q hcond.2.2]
          omega
        · exact absurd hfit (by simp)
      | inf b => simp [specFitsU32, numericVal] at hfit
      | nan => simp [specFitsU32, numericVal] at hfit
    | str s1 => simp [specFitsU32, numericVal] at hfit
  · intro m k v hfind hwf hfit
    cases v with
    | i8 w => simp [getUint32, hfind]
    | i16 w => simp [getUint32, hfind]
    | uintv w => simp [getUint32, hfind]
    | str s1 => simp [getUint32, hfind]
    | u8 w =>
      exfalso
      simp only [WFValue] at hwf
      simp only [specFitsU32, numericVal] at hfit
      rw [if_pos ⟨by positivity, by exact_mod_cast (by omega : w ≤ 4294967295),
        Rat.den_natCast w⟩] at hfit
      exact absurd hfit (by simp)
    | u16 w =>
      exfalso
      simp only [WFValue] at hwf
      simp only [specFitsU32, numericVal] at hfit
      rw [if_pos ⟨by positivity, by exact_mod_cast (by omega : w ≤ 4294967295),
        Rat.den_natCast w⟩] at hfit
      exact absurd hfit (by simp)
    | u32 w =>
      exfalso
      simp only [WFValue] at hwf
      simp only [specFitsU32, numericVal] at hfit
      rw [if_pos ⟨by positivity, by exact_mod_cast hwf, Rat.den_natCast w⟩] at hfit
      exact absurd hfit (by simp)
    | i32 w =>
      simp only [WFValue] at hwf
      simp only [specFitsU32, numericVal] at hfit
      simp only [getUint32, hfind]
      rw [if_neg]
      intro hc
      rw [if_pos ⟨by exact_mod_cast hc, by exact_mod_cast (by omega : w ≤ (4294967295:ℤ)),
        Rat.den_intCast w⟩] at hfit
      exact absurd hfit (by simp)
    | intv w =>
      simp only [specFitsU32, numericVal] at hfit
      simp only [getUint32, hfind]
      rw [if_neg]
      intro hc
      rw [if_pos ⟨by exact_mod_cast hc.1, by exact_mod_cast hc.2,
        Rat.den_intCast w⟩] at hfit
      exact absurd hfit (by simp)
    | f64 fv =>
      simp only [getUint32, hfind]
      rw [if_neg]
      intro hg
      rcases (fvalGuard_iff fv 4294967295).mp hg with ⟨q, hq, h0, hub, hden⟩
      subst hq
      simp only [specFitsU32, numericVal] at hfit
      rw [if_pos ⟨h0, by exact_mod_cast hub, hden⟩] at hfit
      exact absurd hfit (by simp)
    | f32 fv =>
      simp only [getUint32, hfind]
      rw [if_neg]
      intro hg
      rcases (fvalGuard_iff fv 4294967295).mp hg with ⟨q, hq, h0, hub, hden⟩
      subst hq
      simp only [specFitsU32, numericVal] at hfit
      rw [if_pos ⟨h0, by exact_mod_cast hub, hden⟩] at hfit
      exact absurd hfit (by simp)
  · intro m k v q hfind hnum
    cases v with
    | i8 w => simp only [numericVal, Option.some_inj] at hnum; simp [getFloat, hfind, hnum]
    | i16 w => simp only [numericVal, Option.some_inj] at hnum; simp [getFloat, hfind, hnum]
    | i32 w => simp only [numericVal, Option.some_inj] at hnum; simp [getFloat, hfind, hnum]
    | intv w => simp only [numericVal, Option.some_inj] at hnum; simp [getFloat, hfind, hnum]
    | u8 w => simp only [numericVal, Option.some_inj] at hnum; simp [getFloat, hfind, hnum]
    | u16 w => simp only [numericVal, Option.some_inj] at hnum; simp [getFloat, hfind, hnum]
    | u32 w => simp only [numericVal, Option.some_inj] at hnum; simp [getFloat, hfind, hnum]
    | uintv w => simp only [numericVal, Option.some_inj] at hnum; simp [getFloat, hfind, hnum]
    | f64 fv =>
      cases fv with
      | finite q2 =>
        simp only [numericVal, Option.some_inj] at hnum
        simp [getFloat, hfind, hnum]
      | inf b => simp [numericVal] at hnum
      | nan => simp [numericVal] at hnum
    | f32 fv =>
      cases fv with
      | finite q2 =>
        simp only [numericVal, Option.some_inj] at hnum
        simp [getFloat, hfind, hnum]
      | inf b => simp [numericVal] at hnum
      | nan => simp [numericVal] at hnum
    | str s1 => simp [numericVal] at hnum
  · intro m k s1 hfind
    simp [getString, hfind]

/-- C6 (amended) witness at concrete inputs. -/
theorem c6AmendedWitness :
    (getUint8 [("id", Value.u8 7)] "id" = 7 ∨ (∃ w, Value.u8 7 = .i16 w) ∨
      (∃ w, Value.u8 7 = .i32 w) ∨ (∃ w, Value.u8 7 = .uintv w)) ∧
    (getUint8 [("id", Value.u16 300)] "id" = 0 ∨
      ∃ w, Value.u16 300 = .i8 w ∧ w < 0 ∧ getUint8 [("id", Value.u16 300)] "id" = (w + 256).toNat) ∧
    getUint8 [("id", Value.i16 5)] "id" = 0 ∧
    (getUint32 [("id", Value.u16 300)] "id" = 300 ∨ (∃ w, Value.u16 300 = .i8 w) ∨
      (∃ w, Value.u16 300 = .i16 w) ∨ (∃ w, Value.u16 300 = .uintv w)) ∧
    getUint32 [("id", Value.i32 (-5))] "id" = 0 ∧
    getFloat [("lat", Value.i16 3)] "lat" = .finite 3 ∧
    getString [("name_en", Value.str [65])] "name_en" = [65] :=
  ⟨c6Amended.1 [("id", Value.u8 7)] "id" (Value.u8 7) 7 rfl (by norm_num [WFValue])
     (by decide),
   c6Amended.2.1 [("id", Value.u16 300)] "id" (Value.u16 300) rfl (by norm_num [WFValue])
     (by decide),
   c6Amended.2.2.1 [("id", Value.i16 5)] "id" 5 rfl,
   c6Amended.2.2.2.1 [("id", Value.u16 300)] "id" (Value.u16 300) 300 rfl
     (by norm_num [WFValue]) (by decide),
   c6Amended.2.2.2.2.1 [("id", Value.i32 (-5))] "id" (Value.i32 (-5)) rfl
     (by norm_num [WFValue]) (by decide),
   c6Amended.2.2.2.2.2.1 [("lat", Value.i16 3)] "lat" (Value.i16 3) 3 rfl (by decide),
   c6Amended.2.2.2.2.2.2 [("name_en", Value.str [65])] "name_en" [65] rfl⟩

/-- One-step unfolding of the reference lower-bound scan. -/
theorem lbSpec_unfold (arr : List Nat) (x lo hi : Nat) :
    lbSpec arr x lo hi =
      if lo > hi then hi + 1
      else if x ≤ arr.getD lo 0 then lo
      else lbSpec arr x (lo + 1) hi := by
  unfold lbSpec
  by_cases h : lo > hi
  · have h0 : hi + 1 - lo = 0 := by omega
    rw [h0, if_pos h]
    rfl
  · obtain ⟨f, hf⟩ : ∃ f, hi + 1 - lo = f + 1 := ⟨hi - lo, by omega⟩
    have hf2 : hi + 1 - (lo + 1) = f := by omega
    rw [hf, hf2, if_neg h]
    show (if lo > hi then hi + 1 else _) = _
    rw [if_neg h]

/-- The reference scan never exceeds the upper bound plus one. -/
theorem lbSpec_bounds (arr : List Nat) (x : Nat) :
    ∀ (d lo hi : Nat), hi + 1 - lo ≤ d → lbSpec arr x lo hi ≤ hi + 1 := by
  intro d
  induction d with
  | zero =>
    intro lo hi h
    rw [lbSpec_unfold, if_pos (by omega)]
  | succ f ih =>
    intro lo hi h
    rw [lbSpec_unfold]
    by_cases h1 : lo > hi
    · rw [if_pos h1]
    · rw [if_neg h1]
      by_cases h2 : x ≤ arr.getD lo 0
      · rw [if_pos h2]
        omega
      · rw [if_neg h2]
        exact ih (lo + 1) hi (by omega)

/-- Entries strictly before the reference scan result are below the key. -/
theorem lbSpec_prefix_lt (arr : List Nat) (x : Nat) :
    ∀ (d lo hi : Nat), hi + 1 - lo ≤ d →
      ∀ i, lo ≤ i → i < lbSpec arr x lo hi → arr.getD i 0 < x := by
  intro d
  induction d with
  | zero =>
    intro lo hi h i hi1 hi2
    rw [lbSpec_unfold, if_pos (by omega)] at hi2
    omega
  | succ f ih =>
    intro lo hi h i hi1 hi2
    rw [lbSpec_unfold] at hi2
    by_cases h1 : lo > hi
    · rw [if_pos h1] at hi2
      omega
    · rw [if_neg h1] at hi2
      by_cases h2 : x ≤ arr.getD lo 0
      · rw [if_pos h2] at hi2
        omega
      · rw [if_neg h2] at hi2
        by_cases h3 : i = lo
        · subst h3
          omega
        · exact ih (lo + 1) hi (by omega) i (by omega) hi2

/-- When the reference scan lands inside the range, the entry there is at
least the key. -/
theorem lbSpec_hit (arr : List Nat) (x : Nat) :
    ∀ (d lo hi : Nat), hi + 1 - lo ≤ d →
      lbSpec arr x lo hi ≤ hi → x ≤ arr.getD (lbSpec arr x lo hi) 0 := by
  intro d
  induction d with
  | zero =>
    intro lo hi h hle
    rw [lbSpec_unfold, if_pos (by omega)] at hle ⊢
    omega
  | succ f ih =>
    intro lo hi h hle
    rw [lbSpec_unfold] at hle ⊢
    by_cases h1 : lo > hi
    · rw [if_pos h1] at hle ⊢
      omega
    · rw [if_neg h1] at hle ⊢
      by_cases h2 : x ≤ arr.getD lo 0
      · rw [if_pos h2] at hle ⊢
        exact h2
      · rw [if_neg h2] at hle ⊢
        exact ih (lo + 1) hi (by omega) hle

/-- Skipping a prefix of entries below the key does not change the
reference scan result. -/
theorem lbSpec_skip (arr : List Nat) (x : Nat) :
    ∀ (d lo hi : Nat), lo + d ≤ hi + 1 →
      (∀ i, lo ≤ i → i < lo + d → arr.getD i 0 < x) →
      lbSpec arr x lo hi = lbSpec arr x (lo + d) hi := by
  intro d
  induction d with
  | zero => intro lo hi _ _; rfl
  | succ f ih =>
    intro lo hi hd hpre
    rw [lbSpec_unfold, if_neg (by omega),
      if_neg (by have := hpre lo (by omega) (by omega); omega)]
    have := ih (lo + 1) hi (by omega)
      (fun i h1 h2 => hpre i (by omega) (by omega))
    rw [this]
    congr 1
    omega

/-- Bounds of the bisection phase: the result pair stays inside the input
range and keeps the lower at most the upper bound. -/
theorem idxBinA_bounds (arr : List Nat) (x : Nat) :
    ∀ (fuel mn mx : Nat), mn ≤ mx →
      mn ≤ (idxBinA arr x fuel mn mx).1 ∧
      (idxBinA arr x fuel mn mx).1 ≤ (idxBinA arr x fuel mn mx).2 ∧
      (idxBinA arr x fuel mn mx).2 ≤ mx := by
  intro fuel
  induction fuel with
  | zero => intro mn mx h; exact ⟨Nat.le_refl mn, h, Nat.le_refl mx⟩
  | succ f ih =>
    intro mn mx h
    rw [show idxBinA arr x (f + 1) mn mx =
        (if mx - mn > 8 then
          if x > arr.getD (mn + (mx - mn) / 2) 0 then
            idxBinA arr x f (mn + (mx - mn) / 2 + 1) mx
          else idxBinA arr x f mn (mn + (mx - mn) / 2)
        else (mn, mx)) from rfl]
    by_cases h8 : mx - mn > 8
    · rw [if_pos h8]
      by_cases hc : x > arr.getD (mn + (mx - mn) / 2) 0
      · rw [if_pos hc]
        have := ih (mn + (mx - mn) / 2 + 1) mx (by omega)
        exact ⟨by omega, this.2.1, this.2.2⟩
      · rw [if_neg hc]
        have := ih mn (mn + (mx - mn) / 2) (by omega)
        exact ⟨this.1, this.2.1, by omega⟩
    · rw [if_neg h8]
      exact ⟨Nat.le_refl mn, h, Nat.le_refl mx⟩

/-- Every entry the bisection phase discards on the left is below the key
(under sortedness of the touched range). -/
theorem idxBinA_prefix (arr : List Nat) (x : Nat)
    (hs : ∀ i, i < arr.length → ∀ j, j < arr.length → i ≤ j →
      arr.getD i 0 ≤ arr.getD j 0) :
    ∀ (fuel mn mx : Nat), mn ≤ mx → mx < arr.length →
      ∀ i, mn ≤ i → i < (idxBinA arr x fuel mn mx).1 → arr.getD i 0 < x := by
  intro fuel
  induction fuel with
  | zero =>
    intro mn mx h hlen i h1 h2
    exact absurd h2 (by simp [idxBinA]; omega)
  | succ f ih =>
    intro mn mx h hlen i h1 h2
    rw [show idxBinA arr x (f + 1) mn mx =
        (if mx - mn > 8 then
          if x > arr.getD (mn + (mx - mn) / 2) 0 then
            idxBinA arr x f (mn + (mx - mn) / 2 + 1) mx
          else idxBinA arr x f mn (mn + (mx - mn) / 2)
        else (mn, mx)) from rfl] at h2
    by_cases h8 : mx - mn > 8
    · rw [if_pos h8] at h2
      by_cases hc : x > arr.getD (mn + (mx - mn) / 2) 0
      · rw [if_pos hc] at h2
        by_cases hi3 : i ≤ mn + (mx - mn) / 2
        · have hle := hs i (by omega) (mn + (mx - mn) / 2) (by omega) hi3
          omega
        · exact ih (mn + (mx - mn) / 2 + 1) mx (by omega) hlen i (by omega) h2
      · rw [if_neg hc] at h2
        exact ih mn (mn + (mx - mn) / 2) (by omega) (by omega) i h1 h2
    · rw [if_neg h8] at h2
      omega

/-- The linear phase is exactly the reference scan when given its exact
fuel. -/
theorem idxLinA_eq_lbSpec (arr : List Nat) (x : Nat) :
    ∀ (fuel mn cur : Nat), mn ≤ cur + 1 → fuel = cur + 1 - mn →
      idxLinA arr x fuel mn cur = lbSpec arr x mn cur := by
  intro fuel
  induction fuel with
  | zero =>
    intro mn cur h hf
    rw [lbSpec_unfold, if_pos (by omega)]
    show mn = cur + 1
    omega
  | succ f ih =>
    intro mn cur h hf
    rw [lbSpec_unfold, if_neg (by omega)]
    show (if mn ≤ cur then if x > arr.getD mn 0 then idxLinA arr x f (mn + 1) cur else mn
      else mn) = _
    rw [if_pos (by omega)]
    by_cases hc : x > arr.getD mn 0
    · rw [if_pos hc, if_neg (by omega)]
      exact ih (mn + 1) cur (by omega) (by omega)
    · rw [if_neg hc, if_pos (by omega)]

/-- C5: under the database invariant that the (parsed) main index is
sorted, the partition search clamps the upper bound to the index length,
returns the lower bound unchanged on an empty clamped range, and otherwise
computes exactly the reference lower bound: the smallest index in the
clamped range whose entry is at least the IP value, or the clamped bound
plus one when none is; the entry found is at least the IP and all skipped
entries are below it. -/
theorem c5MainIndexPartition (s : SxGeo) (ipBytes : List Nat) (lo hi : Nat)
    (hmode : (s.batchMode || s.memoryMode) = true)
    (hne : s.mainIndexArr ≠ [])
    (hs : ∀ i, i < s.mainIndexArr.length → ∀ j, j < s.mainIndexArr.length → i ≤ j →
      s.mainIndexArr.getD i 0 ≤ s.mainIndexArr.getD j 0) :
    (lo > min hi (s.mainIndexArr.length - 1) → s.searchIdx ipBytes lo hi = lo) ∧
    (lo ≤ min hi (s.mainIndexArr.length - 1) →
      s.searchIdx ipBytes lo hi =
        lbSpec s.mainIndexArr (be32 ipBytes 0) lo (min hi (s.mainIndexArr.length - 1)) ∧
      (∀ i, lo ≤ i → i < s.searchIdx ipBytes lo hi →
        s.mainIndexArr.getD i 0 < be32 ipBytes 0) ∧
      (s.searchIdx ipBytes lo hi ≤ min hi (s.mainIndexArr.length - 1) →
        be32 ipBytes 0 ≤ s.mainIndexArr.getD (s.searchIdx ipBytes lo hi) 0) ∧
      s.searchIdx ipBytes lo hi ≤ min hi (s.mainIndexArr.length - 1) + 1) := by
  have hlen : s.mainIndexArr.length ≠ 0 := fun h => hne (List.length_eq_zero.mp h)
  have hmx1 : (if hi ≥ s.mainIndexArr.length then s.mainIndexArr.length - 1 else hi) =
      min hi (s.mainIndexArr.length - 1) := by
    split <;> omega
  constructor
  · intro hgt
    unfold SxGeo.searchIdx
    rw [if_pos hmode, if_neg hlen, hmx1, if_pos hgt]
  · intro hle
    set arr := s.mainIndexArr with harr
    set x := be32 ipBytes 0 with hx
    set hi1 := min hi (arr.length - 1) with hhi1
    have hsi : s.searchIdx ipBytes lo hi = lbSpec arr x lo hi1 := by
      unfold SxGeo.searchIdx
      rw [if_pos hmode, if_neg hlen, hmx1, if_neg (by omega)]
      have hb := idxBinA_bounds arr x (hi1 - lo) lo hi1 hle
      have hpre := idxBinA_prefix arr x hs (hi1 - lo) lo hi1 hle (by omega)
      have hlin := idxLinA_eq_lbSpec arr x (hi1 + 1 - (idxBinA arr x (hi1 - lo) lo hi1).1)
        (idxBinA arr x (hi1 - lo) lo hi1).1 hi1 (by omega) rfl
      rw [hlin]
      have hskip := lbSpec_skip arr x ((idxBinA arr x (hi1 - lo) lo hi1).1 - lo) lo hi1
        (by omega) (fun i h1 h2 => hpre i h1 (by omega))
      rw [hskip]
      congr 1
      omega
    refine ⟨hsi, ?_, ?_, ?_⟩
    · intro i h1 h2
      rw [hsi] at h2
      exact lbSpec_prefix_lt arr x (hi1 + 1 - lo) lo hi1 (by omega) i h1 h2
    · intro h2
      rw [hsi] at h2 ⊢
      exact lbSpec_hit arr x (hi1 + 1 - lo) lo hi1 (by omega) h2
    · rw [hsi]
      exact lbSpec_bounds arr x (hi1 + 1 - lo) lo hi1 (by omega)

/-- C5 witness at a concrete engine and concrete bounds. -/
theorem c5MainIndexPartitionWitness :
    (sCountry.searchIdx [1, 2, 3, 4] 5 0 = 5) ∧
    (sCountry.searchIdx [1, 2, 3, 4] 0 7 =
      lbSpec sCountry.mainIndexArr (be32 [1, 2, 3, 4] 0) 0
        (min 7 (sCountry.mainIndexArr.length - 1))) :=
  ⟨(c5MainIndexPartition sCountry [1, 2, 3, 4] 5 0 rfl (by decide) (by decide)).1
     (by decide),
   ((c5MainIndexPartition sCountry [1, 2, 3, 4] 0 7 rfl (by decide) (by decide)).2
     (by decide)).1⟩

/-- A successful parseCity always reports the City record decoded from the
city read, independently of the full flag. -/
theorem parseCity_ok_city (s : SxGeo) (seek : Nat) (full : Bool) (la : LocationInfo)
    (h : s.parseCity seek full = .ok la) :
    ∃ m, s.readData seek s.header.maxCity 2 = (m, none) ∧ umapLen m ≠ 0 ∧
      la.city = some
        { id := getUint32 m "id", lat := getFloat m "lat", lon := getFloat m "lon"
          nameRu := getString m "name_ru", nameEn := getString m "name_en"
          regionSeek := getUint32 m "region_seek", countryID := getUint8 m "country_id" } := by
  unfold SxGeo.parseCity at h
  by_cases hfmt : s.packFormats.length ≤ 2 ∨ s.packFormats.getD 2 "" = ""
  · rw [if_pos hfmt] at h
    exact absurd h (by simp)
  · rw [if_neg hfmt] at h
    rcases hr : s.readData seek s.header.maxCity 2 with ⟨m, e⟩
    rw [hr] at h
    cases e with
    | some e0 => exact absurd h (by simp)
    | none =>
      refine ⟨m, rfl, ?_, ?_⟩
      · intro hlen
        simp only [hlen] at h
        exact absurd h (by simp)
      · by_cases hlen : umapLen m = 0
        · simp only [hlen] at h
          exact absurd h (by simp)
        · simp only [hlen] at h
          rw [if_neg (by simp)] at h
          cases h
          rfl

/-- C8 (amended): the basic and the full city lookup always agree on the
City field, and when the city record carries no region seek the two
lookups return completely identical results; the Country field may differ
only when a country record is reached through the region chain. -/
theorem c8Amended :
    (∀ (s : SxGeo) (seek : Nat) (la lb : LocationInfo),
      s.parseCity seek false = .ok la → s.parseCity seek true = .ok lb →
      la.city = lb.city) ∧
    (∀ (s : SxGeo) (seek : Nat) (m : UMap),
      s.readData seek s.header.maxCity 2 = (m, none) →
      getUint32 m "region_seek" = 0 →
      s.parseCity seek true = s.parseCity seek false) ∧
    (∀ (s : SxGeo) (ip : Option Nat) (la lb : LocationInfo),
      s.GetCity ip = .ok (some la) → s.GetCityFull ip = .ok (some lb) →
      la.city = lb.city) := by
  have hcity : ∀ (s : SxGeo) (seek : Nat) (la lb : LocationInfo),
      s.parseCity seek false = .ok la → s.parseCity seek true = .ok lb →
      la.city = lb.city := by
    intro s seek la lb ha hb
    obtain ⟨m1, hr1, -, hc1⟩ := parseCity_ok_city s seek false la ha
    obtain ⟨m2, hr2, -, hc2⟩ := parseCity_ok_city s seek true lb hb
    rw [hr1] at hr2
    cases hr2
    rw [hc1, hc2]
  refine ⟨hcity, ?_, ?_⟩
  · intro s seek m hread hseek
    unfold SxGeo.parseCity
    by_cases hfmt : s.packFormats.length ≤ 2 ∨ s.packFormats.getD 2 "" = ""
    · rw [if_pos hfmt, if_pos hfmt]
    · rw [if_neg hfmt, if_neg hfmt, hread]
      dsimp only
      by_cases hlen : umapLen m = 0
      · rw [if_pos hlen, if_pos hlen]
      · rw [if_neg hlen, if_neg hlen]
        rw [hseek]
        rw [if_neg (by simp), if_neg (by simp)]
        rfl
  · intro s ip la lb ha hb
    unfold SxGeo.GetCity at ha
    unfold SxGeo.GetCityFull at hb
    by_cases hmc : s.header.maxCity = 0
    · rw [if_pos hmc] at ha
      exact absurd ha (by simp)
    · rw [if_neg hmc] at ha
      rw [if_neg hmc] at hb
      rcases hg : s.getNum ip with e | seek
      · rw [hg] at ha
        by_cases hr : e = .reserved
        · simp only [if_pos hr] at ha
          exact absurd ha (by simp)
        · simp only [if_neg hr] at ha
          exact absurd ha (by simp)
      · rw [hg] at ha
        rw [hg] at hb
        by_cases h0 : seek = 0
        · simp only [if_pos h0] at ha
          exact absurd ha (by simp)
        · simp only [if_neg h0] at ha
          simp only [if_neg h0] at hb
          rcases hpa : s.parseCity seek false with pe | pa
          · rw [hpa] at ha
            exact absurd ha (by simp)
          · rw [hpa] at ha
            rcases hpb : s.parseCity seek true with qe | pb
            · rw [hpb] at hb
              exact absurd hb (by simp)
            · rw [hpb] at hb
              simp only [Except.ok.injEq, Option.some_inj] at ha hb
              subst ha
              subst hb
              exact hcity s seek pa pb hpa hpb

/-- C8 (amended) witness at concrete inputs. -/
theorem c8AmendedWitness :
    locBasic.city = locFull.city ∧
    sCityZero.parseCity 0 true = sCityZero.parseCity 0 false ∧
    locBasic.city = locFull.city :=
  ⟨c8Amended.1 sCityC 1 locBasic locFull rfl rfl,
   c8Amended.2.1 sCityZero 0 [("country_id", Value.u8 3)] rfl rfl,
   c8Amended.2.2 sCityC (some queryIp) locBasic locFull rfl rfl⟩

/-- In-range default reads pick an element of the list. -/
theorem getD_mem_of_lt (l : List Nat) (i : Nat) (h : i < l.length) : l.getD i 0 ∈ l := by
  rw [List.getD_eq_getElem l 0 h]
  exact List.getElem_mem h

/-- Sub-ranges of bounded byte slices stay bounded. -/
theorem bytesBounded_take_drop (l : List Nat) (hb : bytesBounded l) (a b : Nat) :
    bytesBounded ((l.drop a).take b) :=
  fun x hx => hb x (List.mem_of_mem_drop (List.mem_of_mem_take hx))

/-- Suffixes of bounded byte slices stay bounded. -/
theorem bytesBounded_drop (l : List Nat) (hb : bytesBounded l) (a : Nat) :
    bytesBounded (l.drop a) :=
  fun x hx => hb x (List.mem_of_mem_drop hx)

/-- Lookup after a Go-style map update. -/
theorem umapFind_insert (m : UMap) (k : String) (v : Value) (k2 : String) :
    umapFind (umapInsert m k v) k2 = if k2 = k then some v else umapFind m k2 := by
  induction m with
  | nil =>
    show (if k = k2 then some v else umapFind ([] : UMap) k2) = _
    by_cases h : k2 = k
    · rw [if_pos h.symm, if_pos h]
    · rw [if_neg (Ne.symm h), if_neg h]
  | cons e rest ih =>
    show umapFind (if e.1 = k then (k, v) :: rest else e :: umapInsert rest k v) k2 = _
    by_cases he : e.1 = k
    · rw [if_pos he]
      show (if k = k2 then some v else umapFind rest k2) = _
      by_cases h2 : k2 = k
      · rw [if_pos h2.symm, if_pos h2]
      · rw [if_neg (Ne.symm h2), if_neg h2]
        show _ = if e.1 = k2 then some e.2 else umapFind rest k2
        have hne : ¬(e.1 = k2) := by
          rw [he]
          exact Ne.symm h2
        rw [if_neg hne]
    · rw [if_neg he]
      show (if e.1 = k2 then some e.2 else umapFind (umapInsert rest k v) k2) = _
      by_cases h2 : e.1 = k2
      · have hk2 : ¬(k2 = k) := fun hh => he (h2.trans hh)
        rw [if_pos h2, if_neg hk2]
        show _ = if e.1 = k2 then some e.2 else umapFind rest k2
        rw [if_pos h2]
      · rw [if_neg h2, ih]
        by_cases h3 : k2 = k
        · rw [if_pos h3, if_pos h3]
        · rw [if_neg h3, if_neg h3]
          show _ = if e.1 = k2 then some e.2 else umapFind rest k2
          rw [if_neg h2]

/-- The empty map has the u8 bound invariant. -/
theorem u8Good_nil : u8Good [] := by
  intro k v h
  simp [umapFind] at h

/-- Updates whose value respects the u8 bound preserve the invariant. -/
theorem u8Good_insert (m : UMap) (k : String) (v : Value) (hm : u8Good m)
    (hv : ∀ w, v = Value.u8 w → w < 256) : u8Good (umapInsert m k v) := by
  intro k2 w hfind
  rw [umapFind_insert] at hfind
  split at hfind
  · exact hv w (Option.some.inj hfind)
  · exact hm k2 w hfind

/-- The unpacker only stores uint8 values read from single bytes, so every
map it builds from bounded byte data keeps the u8 bound invariant. -/
theorem unpackParts_u8Good :
    ∀ (parts : List String) (data : List Nat) (offset : Nat) (acc : UMap),
      bytesBounded data → u8Good acc → u8Good (unpackParts parts data offset acc).1 := by
  intro parts
  induction parts with
  | nil => intro data offset acc _ hg; exact hg
  | cons part rest ih =>
    intro data offset acc hb hg
    unfold unpackParts
    by_cases hoff : offset ≥ data.length
    · rw [if_pos hoff]; exact hg
    · rw [if_neg hoff]
      rcases hsp : splitSpec part with _ | spec
      · simp only [hsp]; exact hg
      · simp only [hsp]
        rcases hd : spec.1.data with _ | ⟨c, lenChars⟩
        · simp only [hd]; exact hg
        · simp only [hd]
          have hbyte : ∀ i, i < data.length → byteAt data i < 256 := by
            intro i hi
            exact hb _ (getD_mem_of_lt data i hi)
          by_cases h1 : c = 't'
          · rw [if_pos h1]
            by_cases ht : offset + 1 > data.length
            · rw [if_pos ht]; exact hg
            · rw [if_neg ht]
              exact ih data _ _ hb (u8Good_insert _ _ _ hg (fun w hw => absurd hw (by simp)))
          · rw [if_neg h1]
            by_cases h2 : c = 'T'
            · rw [if_pos h2]
              by_cases ht : offset + 1 > data.length
              · rw [if_pos ht]; exact hg
              · rw [if_neg ht]
                refine ih data _ _ hb (u8Good_insert _ _ _ hg ?_)
                intro w hw
                injection hw with hww
                rw [← hww]
                exact hbyte offset (by omega)
            · rw [if_neg h2]
              by_cases h3 : c = 's'
              · rw [if_pos h3]
                by_cases ht : offset + 2 > data.length
                · rw [if_pos ht]; exact hg
                · rw [if_neg ht]
                  exact ih data _ _ hb
                    (u8Good_insert _ _ _ hg (fun w hw => absurd hw (by simp)))
              · rw [if_neg h3]
                by_cases h4 : c = 'S'
                · rw [if_pos h4]
                  by_cases ht : offset + 2 > data.length
                  · rw [if_pos ht]; exact hg
                  · rw [if_neg ht]
                    exact ih data _ _ hb
                      (u8Good_insert _ _ _ hg (fun w hw => absurd hw (by simp)))
                · rw [if_neg h4]
                  by_cases h5 : c = 'm'
                  · rw [if_pos h5]
                    by_cases ht : offset + 3 > data.length
                    · rw [if_pos ht]; exact hg
                    · rw [if_neg ht]
                      exact ih data _ _ hb
                        (u8Good_insert _ _ _ hg (fun w hw => absurd hw (by simp)))
                  · rw [if_neg h5]
                    by_cases h6 : c = 'M'
                    · rw [if_pos h6]
                      by_cases ht : offset + 3 > data.length
                      · rw [if_pos ht]; exact hg
                      · rw [if_neg ht]
                        exact ih data _ _ hb
                          (u8Good_insert _ _ _ hg (fun w hw => absurd hw (by simp)))
                    · rw [if_neg h6]
                      by_cases h7 : c = 'i'
                      · rw [if_pos h7]
                        by_cases ht : offset + 4 > data.length
                        · rw [if_pos ht]; exact hg
                        · rw [if_neg ht]
                          exact ih data _ _ hb
                            (u8Good_insert _ _ _ hg (fun w hw => absurd hw (by simp)))
                      · rw [if_neg h7]
                        by_cases h8 : c = 'I'
                        · rw [if_pos h8]
                          by_cases ht : offset + 4 > data.length
                          · rw [if_pos ht]; exact hg
                          · rw [if_neg ht]
                            exact ih data _ _ hb
                              (u8Good_insert _ _ _ hg (fun w hw => absurd hw (by simp)))
                        · rw [if_neg h8]
                          by_cases h9 : c = 'f'
                          · rw [if_pos h9]
                            by_cases ht : offset + 4 > data.length
                            · rw [if_pos ht]; exact hg
                            · rw [if_neg ht]
                              exact ih data _ _ hb
                                (u8Good_insert _ _ _ hg (fun w hw => absurd hw (by simp)))
                          · rw [if_neg h9]
                            by_cases h10 : c = 'd'
                            · rw [if_pos h10]
                              by_cases ht : offset + 8 > data.length
                              · rw [if_pos ht]; exact hg
                              · rw [if_neg ht]
                                exact ih data _ _ hb
                                  (u8Good_insert _ _ _ hg (fun w hw => absurd hw (by simp)))
                            · rw [if_neg h10]
                              by_cases h11 : c = 'n'
                              · rw [if_pos h11]
                                by_cases ht : offset + 2 > data.length
                                · rw [if_pos ht]; exact hg
                                · rw [if_neg ht]
                                  exact ih data _ _ hb
                                    (u8Good_insert _ _ _ hg (fun w hw => absurd hw (by simp)))
                              · rw [if_neg h11]
                                by_cases h12 : c = 'N'
                                · rw [if_pos h12]
                                  by_cases ht : offset + 4 > data.length
                                  · rw [if_pos ht]; exact hg
                                  · rw [if_neg ht]
                                    exact ih data _ _ hb
                                      (u8Good_insert _ _ _ hg
                                        (fun w hw => absurd hw (by simp)))
                                · rw [if_neg h12]
                                  by_cases h13 : c = 'c'
                                  · rw [if_pos h13]
                                    by_cases hcl : (goAtoi (String.mk lenChars)).2 = false ∨
                                        (goAtoi (String.mk lenChars)).1 ≤ 0
                                    · rw [if_pos hcl]; exact hg
                                    · rw [if_neg hcl]
                                      exact ih data _ _ hb
                                        (u8Good_insert _ _ _ hg
                                          (fun w hw => absurd hw (by simp)))
                                  · rw [if_neg h13]
                                    by_cases h14 : c = 'b'
                                    · rw [if_pos h14]
                                      by_cases hnul : findNul data offset ≥ data.length
                                      · rw [if_pos hnul]
                                        exact ih data _ _ hb
                                          (u8Good_insert _ _ _ hg
                                            (fun w hw => absurd hw (by simp)))
                                      · rw [if_neg hnul]
                                        exact ih data _ _ hb
                                          (u8Good_insert _ _ _ hg
                                            (fun w hw => absurd hw (by simp)))
                                    · rw [if_neg h14]
                                      exact hg

/-- The unpacker keeps the u8 bound invariant on bounded byte data. -/
theorem unpack_u8Good (fmt : String) (data : List Nat) (hb : bytesBounded data) :
    u8Good (unpack fmt data).1 := by
  unfold unpack
  split_ifs
  · exact u8Good_nil
  · exact u8Good_nil
  · exact unpackParts_u8Good _ data 0 [] hb u8Good_nil

/-- Successful resident fetches return bounded sub-ranges. -/
theorem memFetch_ok_bounded (src : List Nat) (seek maxSize : Nat)
    (hb : bytesBounded src) :
    ∀ d, memFetch src seek maxSize = .ok d → bytesBounded d := by
  intro d h
  simp only [memFetch] at h
  by_cases h1 : seek > src.length
  · rw [if_pos h1] at h
    exact absurd h (by simp)
  · rw [if_neg h1] at h
    by_cases h2 : seek ≥ (if seek + maxSize > src.length then src.length else seek + maxSize)
    · rw [if_pos h2] at h
      cases h
      intro x hx
      cases hx
    · rw [if_neg h2] at h
      cases h
      exact bytesBounded_take_drop src hb _ _

/-- Any map readData returns keeps the u8 bound invariant, given bounded
backing buffers and a bounded file. -/
theorem readData_u8Good (s : SxGeo)
    (hcd : ∀ cd, s.citiesData = some cd → bytesBounded cd)
    (hrg : ∀ rd, s.regionsData = some rd → bytesBounded rd)
    (hff : ∀ fl, s.f = some fl → bytesBounded fl)
    (seek maxSize t : Nat) : u8Good (s.readData seek maxSize t).1 := by
  simp only [SxGeo.readData]
  by_cases hg1 : t ≥ s.packFormats.length ∨ s.packFormats.getD t "" = ""
  · rw [if_pos hg1]; exact u8Good_nil
  · rw [if_neg hg1]
    by_cases hg2 : maxSize = 0
    · rw [if_pos hg2]; exact u8Good_nil
    · rw [if_neg hg2]
      by_cases hmem : s.memoryMode = true
      · rw [if_pos hmem]
        by_cases hg3 : t > 2
        · rw [if_pos hg3]; exact u8Good_nil
        · rw [if_neg hg3]
          have hsrc : ∀ src, (if t = 0 then s.citiesData
              else if t = 1 then s.regionsData else s.citiesData) = some src →
              bytesBounded src := by
            intro src hs
            split_ifs at hs
            · exact hcd src hs
            · exact hrg src hs
            · exact hcd src hs
          rcases hs : (if t = 0 then s.citiesData
              else if t = 1 then s.regionsData else s.citiesData) with _ | src
          · simp only [hs]; exact u8Good_nil
          · simp only [hs]
            rcases hm : memFetch src seek maxSize with e | d
            · simp only [hm]; exact u8Good_nil
            · simp only [hm]
              by_cases hde : d.isEmpty
              · rw [if_pos hde]; exact u8Good_nil
              · rw [if_neg hde]
                exact unpack_u8Good _ d (memFetch_ok_bounded src seek maxSize
                  (hsrc src hs) d hm)
      · rw [if_neg hmem]
        rcases hf : s.f with _ | file
        · simp only [hf]; exact u8Good_nil
        · simp only [hf]
          by_cases hg3 : t > 2
          · rw [if_pos hg3]; exact u8Good_nil
          · rw [if_neg hg3]
            by_cases hz : ((file.drop (if t = 0 then s.citiesBegin + seek
                else if t = 1 then s.regionsBegin + seek
                else s.citiesBegin + seek)).take maxSize).length = 0
            · rw [if_pos hz]; exact u8Good_nil
            · rw [if_neg hz]
              exact unpack_u8Good _ _ (bytesBounded_take_drop file (hff file hf) _ _)

/-- Every value getUint8 can return is below 256 on a map with the u8
bound invariant. -/
theorem getUint8_lt (m : UMap) (hg : u8Good m) (k : String) : getUint8 m k < 256 := by
  rcases hf : umapFind m k with _ | v
  · simp only [getUint8, hf]
    omega
  · cases v with
    | u8 w => simp only [getUint8, hf]; exact hg k w hf
    | i8 w => simp only [getUint8, hf, u8ofI8]; omega
    | i16 w => simp only [getUint8, hf]; omega
    | i32 w => simp only [getUint8, hf]; omega
    | intv w => simp only [getUint8, hf]; split <;> omega
    | uintv w => simp only [getUint8, hf]; omega
    | u16 w => simp only [getUint8, hf]; split <;> omega
    | u32 w => simp only [getUint8, hf]; split <;> omega
    | str s1 => simp only [getUint8, hf]; omega
    | f64 fv =>
      simp only [getUint8, hf]
      split
      · next h =>
        rcases (fvalGuard_iff fv 255).mp h with ⟨q, hq, h0, h255, hden⟩
        subst hq
        rw [fval_toNatTrunc_int q hden]
        have hqq : (q.num : ℚ) = q := (Rat.den_eq_one_iff q).mp hden
        have h2 : (q.num : ℚ) ≤ ((255 : Nat) : ℚ) := by rw [hqq]; exact h255
        have h3 : q.num ≤ 255 := by exact_mod_cast h2
        omega
      · omega
    | f32 fv =>
      simp only [getUint8, hf]
      split
      · next h =>
        rcases (fvalGuard_iff fv 255).mp h with ⟨q, hq, h0, h255, hden⟩
        subst hq
        rw [fval_toNatTrunc_int q hden]
        have hqq : (q.num : ℚ) = q := (Rat.den_eq_one_iff q).mp hden
        have h2 : (q.num : ℚ) ≤ ((255 : Nat) : ℚ) := by rw [hqq]; exact h255
        have h3 : q.num ≤ 255 := by exact_mod_cast h2
        omega
      · omega

/-- With a one-byte id width, every successfully decoded payload is below
256 when the id bytes are bounded. -/
theorem decodeID_lt (s : SxGeo) (h1 : s.header.idLen = 1) (idBytes : List Nat)
    (hbb : bytesBounded idBytes) (n : Nat) (h : s.decodeID idBytes = .ok n) :
    n < 256 := by
  simp only [SxGeo.decodeID] at h
  by_cases hl : idBytes.length ≠ s.header.idLen
  · rw [if_pos hl] at h
    exact absurd h (by simp)
  · rw [if_neg hl, if_pos h1] at h
    cases h
    push_neg at hl
    exact hbb _ (getD_mem_of_lt idBytes 0 (by omega))

/-- With a one-byte id width, the DB block search over bounded data only
returns payloads below 256. -/
theorem searchDb_lt (s : SxGeo) (h1 : s.header.idLen = 1) (data ipBytes : List Nat)
    (mn mx : Nat) (hbb : bytesBounded data) (n : Nat)
    (h : s.searchDb data ipBytes mn mx = .ok n) : n < 256 := by
  simp only [SxGeo.searchDb] at h
  by_cases hd0 : data.length = 0
  · rw [if_pos hd0] at h
    by_cases hmm : mx > mn
    · rw [if_pos hmm] at h
      exact absurd h (by simp)
    · rw [if_neg hmm] at h
      cases h
      omega
  · rw [if_neg hd0] at h
    set mx1 := (if mx > data.length / s.blockSize then data.length / s.blockSize else mx)
      with hmx1
    by_cases hge : mn ≥ mx1
    · rw [if_pos hge] at h
      by_cases hmn : mn > 0
      · rw [if_pos hmn] at h
        by_cases hbound : (mn - 1) * s.blockSize + dbBlockLenOffset + s.header.idLen ≤
            data.length
        · rw [if_pos hbound] at h
          exact decodeID_lt s h1 _ (bytesBounded_take_drop data hbb _ _) n h
        · rw [if_neg hbound] at h
          cases h
          omega
      · rw [if_neg hmn] at h
        cases h
        omega
    · rw [if_neg hge] at h
      set p := dbBin data ipBytes s.blockSize (mx1 - mn) mn mx1 with hp
      set fin := dbLin data ipBytes s.blockSize (mx1 - p.1) p.1 mx1 with hfin
      by_cases hf0 : fin = 0
      · rw [if_pos hf0] at h
        cases h
        omega
      · rw [if_neg hf0] at h
        by_cases hbound : (fin - 1) * s.blockSize + dbBlockLenOffset + s.header.idLen >
            data.length
        · rw [if_pos hbound] at h
          cases h
          omega
        · rw [if_neg hbound] at h
          exact decodeID_lt s h1 _ (bytesBounded_take_drop data hbb _ _) n h


/-- With a one-byte id width and bounded buffers, the mode-dependent block
search only returns payloads below 256. -/
theorem dbSearchAt_lt (s : SxGeo) (h1 : s.header.idLen = 1)
    (hdd : ∀ dd, s.dbData = some dd → bytesBounded dd)
    (hff : ∀ fl, s.f = some fl → bytesBounded fl)
    (ipBytes : List Nat) (pr : Nat × Nat) (n : Nat)
    (h : s.dbSearchAt ipBytes pr = .ok n) : n < 256 := by
  simp only [SxGeo.dbSearchAt] at h
  set smax := (if pr.2 > s.header.dbItems then s.header.dbItems else pr.2) with hsmax
  by_cases hmem : s.memoryMode = true
  · rw [if_pos hmem] at h
    rcases hdb : s.dbData with _ | dd
    · simp only [hdb] at h
      exact absurd h (by simp)
    · simp only [hdb] at h
      set endB := (if smax * s.blockSize > dd.length then dd.length else smax * s.blockSize)
        with hendB
      by_cases hse : pr.1 * s.blockSize ≥ endB
      · rw [if_pos hse] at h
        by_cases hdbp : s.header.dbItems > 0
        · rw [if_pos hdbp] at h
          by_cases hb2 : (s.header.dbItems - 1) * s.blockSize + dbBlockLenOffset +
              s.header.idLen ≤ dd.length
          · rw [if_pos hb2] at h
            exact decodeID_lt s h1 _ (bytesBounded_take_drop dd (hdd dd hdb) _ _) n h
          · rw [if_neg hb2] at h
            exact absurd h (by simp)
        · rw [if_neg hdbp] at h
          exact absurd h (by simp)
      · rw [if_neg hse] at h
        exact searchDb_lt s h1 _ ipBytes _ _
          (bytesBounded_take_drop dd (hdd dd hdb) _ _) n h
  · rw [if_neg hmem] at h
    by_cases hrc : u32sub smax pr.1 = 0
    · rw [if_pos hrc] at h
      exact absurd h (by simp)
    · rw [if_neg hrc] at h
      rcases hf : s.f with _ | file
      · simp only [hf] at h
        exact absurd h (by simp)
      · simp only [hf] at h
        by_cases hz : ((file.drop (s.dbBegin + pr.1 * s.blockSize)).take
            (u32sub smax pr.1 * s.blockSize)).length = 0
        · rw [if_pos hz] at h
          by_cases hrl : u32sub smax pr.1 * s.blockSize > 0
          · rw [if_pos hrl] at h
            by_cases hdbp : s.header.dbItems > 0
            · rw [if_pos hdbp] at h
              by_cases hlb : ((file.drop (s.dbBegin + (s.header.dbItems - 1) *
                  s.blockSize)).take s.blockSize).length ≥ dbBlockLenOffset + s.header.idLen
              · rw [if_pos hlb] at h
                exact decodeID_lt s h1 _
                  (bytesBounded_take_drop _
                    (bytesBounded_take_drop file (hff file hf) _ _) _ _) n h
              · rw [if_neg hlb] at h
                exact absurd h (by simp)
            · rw [if_neg hdbp] at h
              exact absurd h (by simp)
          · rw [if_neg hrl] at h
            exact searchDb_lt s h1 [] ipBytes 0 0 (fun b hb => absurd hb (by simp)) n h
        · rw [if_neg hz] at h
          exact searchDb_lt s h1 _ ipBytes _ _
            (bytesBounded_take_drop file (hff file hf) _ _) n h

/-- With a one-byte id width and bounded buffers, the final DB search only
returns payloads below 256. -/
theorem finishSearch_lt (s : SxGeo) (h1 : s.header.idLen = 1)
    (hdd : ∀ dd, s.dbData = some dd → bytesBounded dd)
    (hff : ∀ fl, s.f = some fl → bytesBounded fl)
    (ipBytes : List Nat) (a b n : Nat)
    (h : s.finishSearch ipBytes a b = .ok n) : n < 256 := by
  unfold SxGeo.finishSearch at h
  rcases hfix : s.fixRange a b with e | pr
  · rw [hfix] at h
    exact absurd h (by simp)
  · rw [hfix] at h
    exact dbSearchAt_lt s h1 hdd hff ipBytes pr n h

/-- With a one-byte id width and bounded buffers, the lookup core only
returns payloads below 256. -/
theorem getNumFrom_lt (s : SxGeo) (h1 : s.header.idLen = 1)
    (hdd : ∀ dd, s.dbData = some dd → bytesBounded dd)
    (hff : ∀ fl, s.f = some fl → bytesBounded fl)
    (ipNum n : Nat) (h : s.getNumFrom ipNum = .ok n) : n < 256 := by
  simp only [SxGeo.getNumFrom] at h
  by_cases hres : byteAt [ipNum / 16777216 % 256, ipNum / 65536 % 256, ipNum / 256 % 256,
      ipNum % 256] 0 = 0 ∨ byteAt [ipNum / 16777216 % 256, ipNum / 65536 % 256,
      ipNum / 256 % 256, ipNum % 256] 0 = 10 ∨ byteAt [ipNum / 16777216 % 256,
      ipNum / 65536 % 256, ipNum / 256 % 256, ipNum % 256] 0 = 127 ∨
      byteAt [ipNum / 16777216 % 256, ipNum / 65536 % 256, ipNum / 256 % 256,
      ipNum % 256] 0 ≥ s.header.byteIndexLen
  · rw [if_pos hres] at h
    exact absurd h (by simp)
  · rw [if_neg hres] at h
    by_cases hnar : u32sub
        (if (s.batchMode || s.memoryMode) = true then
          s.byteIndexArr.getD (byteAt [ipNum / 16777216 % 256, ipNum / 65536 % 256,
            ipNum / 256 % 256, ipNum % 256] 0) 0
        else be32 s.byteIndexStr (byteAt [ipNum / 16777216 % 256, ipNum / 65536 % 256,
            ipNum / 256 % 256, ipNum % 256] 0 * 4))
        (if (s.batchMode || s.memoryMode) = true then
          s.byteIndexArr.getD (byteAt [ipNum / 16777216 % 256, ipNum / 65536 % 256,
            ipNum / 256 % 256, ipNum % 256] 0 - 1) 0
        else be32 s.byteIndexStr ((byteAt [ipNum / 16777216 % 256, ipNum / 65536 % 256,
            ipNum / 256 % 256, ipNum % 256] 0 - 1) * 4)) > s.header.rangeBlocks
    · rw [if_pos hnar] at h
      by_cases hrz : s.header.rangeBlocks = 0
      · rw [if_pos hrz] at h
        exact absurd h (by simp)
      · rw [if_neg hrz] at h
        exact finishSearch_lt s h1 hdd hff _ _ _ n h
    · rw [if_neg hnar] at h
      exact finishSearch_lt s h1 hdd hff _ _ _ n h

/-- Every non-zero id with a table entry has a non-empty entry; outside the
four exceptional ids the entry is two ASCII letters. -/
theorem id2isoTable : ∀ j, j < 256 → 1 ≤ j →
    getISO j ≠ "" ∧ (¬(j = 244 ∨ j = 245 ∨ j = 246 ∨ j = 255) →
      twoAsciiLetters (getISO j) = true) := by decide

/-- C7 (amended): over bounded database bytes, GetCountryID on a city
database, or on a country database with one-byte ids, returns 0 or an id at
most 255 whose table entry is non-empty; the entry is a two-letter ASCII
code except for ids 244, 245, 246 and 255. -/
theorem c7Amended (s : SxGeo)
    (hdd : ∀ dd, s.dbData = some dd → bytesBounded dd)
    (hff : ∀ fl, s.f = some fl → bytesBounded fl)
    (hcd : ∀ cd, s.citiesData = some cd → bytesBounded cd)
    (hrg : ∀ rd, s.regionsData = some rd → bytesBounded rd)
    (hkind : s.header.maxCity > 0 ∨ s.header.idLen = 1) :
    ∀ (ip : Option Nat) (n : Nat), s.GetCountryID ip = .ok n →
      n ≤ 255 ∧ (n = 0 ∨ (getISO n ≠ "" ∧
        (¬(n = 244 ∨ n = 245 ∨ n = 246 ∨ n = 255) →
          twoAsciiLetters (getISO n) = true))) := by
  intro ip n h
  have hmain : n < 256 := by
    unfold SxGeo.GetCountryID at h
    rcases hg : s.getNum ip with e | seekOrID
    · simp only [hg] at h
      by_cases hr : e = SxErr.reserved
      · rw [if_pos hr] at h
        cases h
        omega
      · rw [if_neg hr] at h
        exact absurd h (by simp)
    · simp only [hg] at h
      by_cases h0 : seekOrID = 0
      · rw [if_pos h0] at h
        cases h
        omega
      · rw [if_neg h0] at h
        by_cases hmc : s.header.maxCity > 0
        · rw [if_pos hmc] at h
          rcases hrd : (s.readData seekOrID s.header.maxCity 2).2 with _ | e
          · simp only [hrd] at h
            by_cases hml : umapLen (s.readData seekOrID s.header.maxCity 2).1 = 0
            · rw [if_pos hml] at h
              cases h
              omega
            · rw [if_neg hml] at h
              cases h
              exact getUint8_lt _ (readData_u8Good s hcd hrg hff seekOrID
                s.header.maxCity 2) "country_id"
          · simp only [hrd] at h
            exact absurd h (by simp)
        · rw [if_neg hmc] at h
          cases h
          have hid1 : s.header.idLen = 1 := by
            rcases hkind with hk | hk
            · exact absurd hk hmc
            · exact hk
          rcases ip with _ | ipv
          · exact absurd hg (by simp [SxGeo.getNum])
          · exact getNumFrom_lt s hid1 hdd hff ipv _ hg
  refine ⟨by omega, ?_⟩
  by_cases hz : n = 0
  · exact Or.inl hz
  · exact Or.inr (id2isoTable n hmain (by omega))

/-- C7 (amended) witness: a concrete country database returning id 7, whose
entry AI is a two-letter code. -/
theorem c7AmendedWitness :
    7 ≤ 255 ∧ (7 = 0 ∨ (getISO 7 ≠ "" ∧
      (¬(7 = 244 ∨ 7 = 245 ∨ 7 = 246 ∨ 7 = 255) →
        twoAsciiLetters (getISO 7) = true))) :=
  c7Amended sCountry
    (by intro dd hd; cases hd; intro b hb; fin_cases hb <;> omega)
    (by intro fl hf; cases hf)
    (by intro cd hc; cases hc)
    (by intro rd hr; cases hr)
    (Or.inr rfl) (some queryIp) 7 rfl

/-- Length of a parsed big-endian u32 index. -/
theorem parse32_length (raw : List Nat) : (parse32 raw).length = raw.length / 4 := by
  simp [parse32]

/-- The parsed index agrees entrywise with big-endian decoding of the raw
bytes. -/
theorem parse32_getD (raw : List Nat) (i : Nat) (h : i < raw.length / 4) :
    (parse32 raw).getD i 0 = be32 raw (i * 4) := by
  simp [parse32, List.getD_eq_getElem?_getD, List.getElem?_map, List.getElem?_range h]

/-- The 32-bit wrapping subtraction is plain subtraction when no borrow
occurs. -/
theorem u32sub_exact (a b : Nat) (hb : b ≤ a) (ha : a < 4294967296) :
    u32sub a b = a - b := by
  unfold u32sub
  omega

/-- Bisection over the parsed main index equals bisection over the raw
bytes while the upper bound stays inside the index. -/
theorem idxBin_eq (raw : List Nat) (x : Nat) (fuel mn mx : Nat)
    (hmx : mx < raw.length / 4) :
    idxBinA (parse32 raw) x fuel mn mx = idxBinR raw x fuel mn mx := by
  induction fuel generalizing mn mx with
  | zero => rfl
  | succ fuel ih =>
    simp only [idxBinA, idxBinR]
    by_cases hgap : mx - mn > 8
    · rw [if_pos hgap, if_pos hgap]
      have hmid : mn + (mx - mn) / 2 < raw.length / 4 := by omega
      rw [parse32_getD raw _ hmid]
      by_cases hx : x > be32 raw ((mn + (mx - mn) / 2) * 4)
      · rw [if_pos hx, if_pos hx]
        exact ih _ _ hmx
      · rw [if_neg hx, if_neg hx]
        exact ih _ _ (by omega)
    · rw [if_neg hgap, if_neg hgap]

/-- Linear scan over the parsed main index equals the raw-byte scan (whose
defensive bounds break never fires) while the cursor stays inside the
index. -/
theorem idxLin_eq (raw : List Nat) (x : Nat) (fuel mn cur : Nat)
    (hcur : cur < raw.length / 4) :
    idxLinA (parse32 raw) x fuel mn cur = idxLinR raw x fuel mn cur := by
  induction fuel generalizing mn with
  | zero => rfl
  | succ fuel ih =>
    simp only [idxLinA, idxLinR]
    by_cases hle : mn ≤ cur
    · rw [if_pos hle, if_pos hle]
      have hmn : mn < raw.length / 4 := by omega
      have hbreak : ¬ (mn * 4 + 4 > raw.length) := by omega
      rw [if_neg hbreak, parse32_getD raw mn hmn]
      by_cases hx : x > be32 raw (mn * 4)
      · rw [if_pos hx, if_pos hx]
        exact ih (mn + 1)
      · rw [if_neg hx, if_neg hx]
    · rw [if_neg hle, if_neg hle]

/-- The main-index partition search coincides between a resident engine
holding the parsed index and a file engine holding the raw index bytes. -/
theorem searchIdx_eq (sm sf : SxGeo) (rawM : List Nat)
    (hup : (sm.batchMode || sm.memoryMode) = true)
    (hb1 : sf.batchMode = false) (hb2 : sf.memoryMode = false)
    (hA : sm.mainIndexArr = parse32 rawM) (hR : sf.mainIndexStr = rawM)
    (ipBytes : List Nat) (mn mx : Nat) :
    sm.searchIdx ipBytes mn mx = sf.searchIdx ipBytes mn mx := by
  have hupf : ¬ ((sf.batchMode || sf.memoryMode) = true) := by
    rw [hb1, hb2]
    exact Bool.false_ne_true
  simp only [SxGeo.searchIdx, hA, hR]
  rw [if_pos hup, if_neg hupf]
  by_cases hL : rawM.length = 0
  · rw [if_pos (show (parse32 rawM).length = 0 by rw [parse32_length, hL]), if_pos hL]
  · rw [if_neg hL]
    by_cases hL4 : rawM.length / 4 = 0
    · rw [if_pos (show (parse32 rawM).length = 0 by rw [parse32_length]; exact hL4),
        if_pos hL4]
    · rw [if_neg (show ¬ (parse32 rawM).length = 0 by rw [parse32_length]; exact hL4),
        if_neg hL4, parse32_length]
      set mx1 := (if mx ≥ rawM.length / 4 then rawM.length / 4 - 1 else mx) with hmx1
      by_cases hmn : mn > mx1
      · rw [if_pos hmn, if_pos hmn]
      · rw [if_neg hmn, if_neg hmn]
        have hmx1lt : mx1 < rawM.length / 4 := by
          rw [hmx1]
          split <;> omega
        rw [idxBin_eq rawM _ _ _ _ hmx1lt, idxLin_eq rawM _ _ _ _ hmx1lt]

/-- The id decoder depends only on the configured id width. -/
theorem decodeID_congr (sm sf : SxGeo) (hid : sm.header.idLen = sf.header.idLen)
    (idBytes : List Nat) : sm.decodeID idBytes = sf.decodeID idBytes := by
  simp only [SxGeo.decodeID, hid]

/-- The block search over explicit data depends only on the block size and
the id width. -/
theorem searchDb_congr (sm sf : SxGeo) (hbs : sm.blockSize = sf.blockSize)
    (hid : sm.header.idLen = sf.header.idLen) (data ipBytes : List Nat) (mn mx : Nat) :
    sm.searchDb data ipBytes mn mx = sf.searchDb data ipBytes mn mx := by
  simp only [SxGeo.searchDb, hbs, hid, decodeID_congr sm sf hid]

/-- Taking from the middle of a list slice is itself a slice. -/
theorem sliceSlice {α : Type} (l : List α) (o k s t : Nat) :
    (((l.drop o).take k).drop s).take t = (l.drop (o + s)).take (min t (k - s)) := by
  rw [List.drop_take, List.take_take, List.drop_drop]

/-- Length of a list slice. -/
theorem sliceLen {α : Type} (l : List α) (o k : Nat) :
    ((l.drop o).take k).length = min k (l.length - o) := by
  rw [List.length_take, List.length_drop]

/-- Over the same file, the resident and file-mode block searches agree on
every non-empty range inside the block array. -/
theorem dbSearchAt_eq (sm sf : SxGeo) (file : List Nat)
    (hm : sm.memoryMode = true) (hfm : sf.memoryMode = false)
    (hh : sm.header = sf.header)
    (hbs : sm.blockSize = sf.blockSize)
    (hbsv : sf.blockSize = 3 + sf.header.idLen)
    (hdd : sm.dbData =
      some ((file.drop sf.dbBegin).take (sf.header.dbItems * sf.blockSize)))
    (hf : sf.f = some file)
    (hflen : sf.dbBegin + sf.header.dbItems * sf.blockSize ≤ file.length)
    (hitems : sf.header.dbItems < 4294967296)
    (ipBytes : List Nat) (pr : Nat × Nat)
    (h1 : pr.1 < pr.2) (h2 : pr.2 ≤ sf.header.dbItems) :
    sm.dbSearchAt ipBytes pr = sf.dbSearchAt ipBytes pr := by
  have hbspos : 0 < sf.blockSize := by omega
  have hA1 : pr.1 * sf.blockSize ≤ pr.2 * sf.blockSize :=
    mul_le_mul_right' (le_of_lt h1) _
  have hA2 : pr.2 * sf.blockSize ≤ sf.header.dbItems * sf.blockSize :=
    mul_le_mul_right' h2 _
  have hA3 : pr.1 * sf.blockSize < pr.2 * sf.blockSize :=
    mul_lt_mul_of_pos_right h1 hbspos
  simp only [SxGeo.dbSearchAt, hh, hbs, hdd, hf]
  rw [if_pos hm, if_neg (show ¬ (sf.memoryMode = true) by rw [hfm]; exact Bool.false_ne_true)]
  rw [if_neg (show ¬ (pr.2 > sf.header.dbItems) by omega)]
  have hddl : ((file.drop sf.dbBegin).take (sf.header.dbItems * sf.blockSize)).length =
      sf.header.dbItems * sf.blockSize := by
    rw [sliceLen]
    omega
  rw [hddl]
  rw [if_neg (show ¬ (pr.2 * sf.blockSize > sf.header.dbItems * sf.blockSize) by omega)]
  rw [if_neg (show ¬ (pr.1 * sf.blockSize ≥ pr.2 * sf.blockSize) by omega)]
  rw [u32sub_exact pr.2 pr.1 (le_of_lt h1) (lt_of_le_of_lt h2 hitems)]
  rw [if_neg (show ¬ (pr.2 - pr.1 = 0) by omega)]
  have hpartF : ((file.drop (sf.dbBegin + pr.1 * sf.blockSize)).take
      ((pr.2 - pr.1) * sf.blockSize)).length = (pr.2 - pr.1) * sf.blockSize := by
    rw [sliceLen, Nat.sub_mul]
    omega
  rw [if_neg (show ¬ (((file.drop (sf.dbBegin + pr.1 * sf.blockSize)).take
      ((pr.2 - pr.1) * sf.blockSize)).length = 0) by rw [hpartF, Nat.sub_mul]; omega)]
  have hAB : (((file.drop sf.dbBegin).take (sf.header.dbItems * sf.blockSize)).drop
      (pr.1 * sf.blockSize)).take (pr.2 * sf.blockSize - pr.1 * sf.blockSize) =
      (file.drop (sf.dbBegin + pr.1 * sf.blockSize)).take ((pr.2 - pr.1) * sf.blockSize) := by
    rw [sliceSlice, Nat.sub_mul]
    congr 1
    omega
  rw [hAB]
  exact searchDb_congr sm sf hbs (by rw [hh]) _ ipBytes 0 _

/-- The range fixup depends only on the header. -/
theorem fixRange_congr (sm sf : SxGeo) (hh : sm.header = sf.header) (a b : Nat) :
    sm.fixRange a b = sf.fixRange a b := by
  simp only [SxGeo.fixRange, hh]

/-- Over the same file, the final DB search agrees between resident and file
modes whenever the requested upper bound is inside the block array. -/
theorem finishSearch_eq (sm sf : SxGeo) (file : List Nat)
    (hm : sm.memoryMode = true) (hfm : sf.memoryMode = false)
    (hh : sm.header = sf.header)
    (hbs : sm.blockSize = sf.blockSize)
    (hbsv : sf.blockSize = 3 + sf.header.idLen)
    (hdd : sm.dbData =
      some ((file.drop sf.dbBegin).take (sf.header.dbItems * sf.blockSize)))
    (hf : sf.f = some file)
    (hflen : sf.dbBegin + sf.header.dbItems * sf.blockSize ≤ file.length)
    (hitems : sf.header.dbItems < 4294967296)
    (ipBytes : List Nat) (a b : Nat) (hb : b ≤ sf.header.dbItems) :
    sm.finishSearch ipBytes a b = sf.finishSearch ipBytes a b := by
  unfold SxGeo.finishSearch
  rw [fixRange_congr sm sf hh]
  rcases hfix : sf.fixRange a b with e | pr
  · simp only [hfix]
  · simp only [hfix]
    have hpr : pr.1 < pr.2 ∧ pr.2 ≤ sf.header.dbItems := by
      simp only [SxGeo.fixRange] at hfix
      by_cases hab : a ≥ b
      · rw [if_pos hab] at hfix
        by_cases ha : a < sf.header.dbItems
        · rw [if_pos ha] at hfix
          injection hfix with hpr'
          subst hpr'
          exact ⟨Nat.lt_succ_self a, ha⟩
        · rw [if_neg ha] at hfix
          by_cases hd : sf.header.dbItems > 0
          · rw [if_pos hd] at hfix
            injection hfix with hpr'
            subst hpr'
            exact ⟨Nat.sub_lt hd Nat.one_pos, le_refl _⟩
          · rw [if_neg hd] at hfix
            exact absurd hfix (by simp)
      · rw [if_neg hab] at hfix
        injection hfix with hpr'
        subst hpr'
        exact ⟨by omega, hb⟩
    exact dbSearchAt_eq sm sf file hm hfm hh hbs hbsv hdd hf hflen hitems
      ipBytes pr hpr.1 hpr.2

/-- Over the same file, a resident engine holding the parsed indexes and the
resident DB slice computes the same lookup core as a file engine holding
the raw index bytes, for every IPv4 value. -/
theorem getNumFrom_eq (sm sf : SxGeo) (file rawB rawM : List Nat)
    (hm : sm.memoryMode = true) (hfm : sf.memoryMode = false) (hbf : sf.batchMode = false)
    (hh : sm.header = sf.header)
    (hbs : sm.blockSize = sf.blockSize)
    (hbsv : sf.blockSize = 3 + sf.header.idLen)
    (hbiA : sm.byteIndexArr = parse32 rawB)
    (hbiS : sf.byteIndexStr = rawB)
    (hrawB : rawB.length = sf.header.byteIndexLen * 4)
    (hmiA : sm.mainIndexArr = parse32 rawM)
    (hmiS : sf.mainIndexStr = rawM)
    (hdd : sm.dbData =
      some ((file.drop sf.dbBegin).take (sf.header.dbItems * sf.blockSize)))
    (hf : sf.f = some file)
    (hflen : sf.dbBegin + sf.header.dbItems * sf.blockSize ≤ file.length)
    (hitems : sf.header.dbItems < 4294967296)
    (hbi : ∀ i, i < sf.header.byteIndexLen → be32 rawB (i * 4) ≤ sf.header.dbItems)
    (ipNum : Nat) :
    sm.getNumFrom ipNum = sf.getNumFrom ipNum := by
  have hup : (sm.batchMode || sm.memoryMode) = true := by rw [hm]; simp
  have hupf : ¬ ((sf.batchMode || sf.memoryMode) = true) := by
    rw [hbf, hfm]
    exact Bool.false_ne_true
  simp only [SxGeo.getNumFrom, hh, hbiA, hbiS]
  set ip1 := byteAt [ipNum / 16777216 % 256, ipNum / 65536 % 256, ipNum / 256 % 256,
    ipNum % 256] 0 with hip1
  by_cases hres : ip1 = 0 ∨ ip1 = 10 ∨ ip1 = 127 ∨ ip1 ≥ sf.header.byteIndexLen
  · rw [if_pos hres, if_pos hres]
  · rw [if_neg hres, if_neg hres]
    push_neg at hres
    have hip1lt : ip1 < sf.header.byteIndexLen := hres.2.2.2
    have hip1ne : ip1 ≠ 0 := hres.1
    rw [if_pos hup, if_pos hup, if_neg hupf, if_neg hupf]
    have hlen4 : rawB.length / 4 = sf.header.byteIndexLen := by omega
    rw [parse32_getD rawB (ip1 - 1) (by omega), parse32_getD rawB ip1 (by omega)]
    set minB := be32 rawB ((ip1 - 1) * 4) with hminB
    set maxB := be32 rawB (ip1 * 4) with hmaxB
    have hmaxBle : maxB ≤ sf.header.dbItems := by
      rw [hmaxB]
      exact hbi ip1 hip1lt
    by_cases hnar : u32sub maxB minB > sf.header.rangeBlocks
    · rw [if_pos hnar, if_pos hnar]
      by_cases hrz : sf.header.rangeBlocks = 0
      · rw [if_pos hrz, if_pos hrz]
      · rw [if_neg hrz, if_neg hrz]
        rw [searchIdx_eq sm sf rawM hup hbf hfm hmiA hmiS _ _ _]
        apply finishSearch_eq sm sf file hm hfm hh hbs hbsv hdd hf hflen hitems
        have hbound : ∀ X : Nat, (if X > maxB then maxB else X) ≤ sf.header.dbItems := by
          intro X
          split <;> omega
        exact hbound _
    · rw [if_neg hnar, if_neg hnar]
      exact finishSearch_eq sm sf file hm hfm hh hbs hbsv hdd hf hflen hitems
        _ minB maxB hmaxBle

/-- A list is empty exactly when its length is zero. -/
theorem isEmpty_length {α : Type} (l : List α) : l.isEmpty = true ↔ l.length = 0 := by
  cases l <;> simp

/-- Core record-read equivalence: over the same file, a resident section
slice and a positioned file read produce identical record maps whenever the
seek is inside the section and the file clamps the read exactly as the
section does. -/
theorem readData_eq_core (sm sf : SxGeo) (file : List Nat) (base size : Nat)
    (hm : sm.memoryMode = true) (hfm : sf.memoryMode = false)
    (hpf : sm.packFormats = sf.packFormats)
    (hf : sf.f = some file)
    (seek maxSize t : Nat)
    (ht2 : ¬ (t > 2))
    (hsrc : (if t = 0 then sm.citiesData else if t = 1 then sm.regionsData
      else sm.citiesData) = some ((file.drop base).take size))
    (habs : (if t = 0 then sf.citiesBegin + seek else if t = 1 then sf.regionsBegin + seek
      else sf.citiesBegin + seek) = base + seek)
    (hfl : base + size ≤ file.length)
    (hseek : seek ≤ size)
    (hclamp : min maxSize (file.length - (base + seek)) = min maxSize (size - seek)) :
    sm.readData seek maxSize t = sf.readData seek maxSize t := by
  simp only [SxGeo.readData, hpf, hf]
  by_cases hg1 : t ≥ sf.packFormats.length ∨ sf.packFormats.getD t "" = ""
  · rw [if_pos hg1, if_pos hg1]
  · rw [if_neg hg1, if_neg hg1]
    by_cases hg2 : maxSize = 0
    · rw [if_pos hg2, if_pos hg2]
    · rw [if_neg hg2, if_neg hg2]
      rw [if_pos hm,
        if_neg (show ¬ (sf.memoryMode = true) by rw [hfm]; exact Bool.false_ne_true)]
      rw [if_neg ht2, if_neg ht2]
      simp only [hsrc]
      rw [habs]
      have hsl : ((file.drop base).take size).length = size := by
        rw [sliceLen]
        omega
      have hbytesLen : ((file.drop (base + seek)).take maxSize).length =
          min maxSize (size - seek) := by
        rw [sliceLen]
        exact hclamp
      by_cases hL0 : min maxSize (size - seek) = 0
      · have hmf : memFetch ((file.drop base).take size) seek maxSize = .ok [] := by
          simp only [memFetch]
          rw [hsl]
          rw [if_neg (show ¬ (seek > size) by omega)]
          have he1 : (if seek + maxSize > size then size else seek + maxSize) ≤ seek := by
            split <;> omega
          rw [if_pos he1]
        simp only [hmf]
        rw [if_pos (show (List.isEmpty ([] : List Nat)) = true from rfl)]
        rw [hbytesLen, if_pos hL0]
      · have he1 : seek < (if seek + maxSize > size then size else seek + maxSize) := by
          split <;> omega
        have hE : (if seek + maxSize > size then size else seek + maxSize) - seek =
            min maxSize (size - seek) := by
          split <;> omega
        have hmf : memFetch ((file.drop base).take size) seek maxSize =
            .ok ((file.drop (base + seek)).take (min maxSize (size - seek))) := by
          simp only [memFetch]
          rw [hsl]
          rw [if_neg (show ¬ (seek > size) by omega)]
          rw [if_neg (show ¬ (seek ≥ (if seek + maxSize > size then size
            else seek + maxSize)) by omega)]
          rw [sliceSlice, hE]
          have hmm : min (min maxSize (size - seek)) (size - seek) =
              min maxSize (size - seek) := by omega
          rw [hmm]
        simp only [hmf]
        have hdlen : ((file.drop (base + seek)).take (min maxSize (size - seek))).length =
            min maxSize (size - seek) := by
          rw [sliceLen]
          omega
        rw [if_neg (show ¬ ((((file.drop (base + seek)).take
            (min maxSize (size - seek))).isEmpty) = true) by
          rw [isEmpty_length, hdlen]; exact hL0)]
        rw [hbytesLen, if_neg hL0]
        have hdataeq : (file.drop (base + seek)).take (min maxSize (size - seek)) =
            (file.drop (base + seek)).take maxSize := by
          rw [List.take_eq_take, List.length_drop]
          omega
        rw [hdataeq]

/-- C3 (amended): over the same well-formed file, resident (MEMORY) and
FILE modes agree on the lookup core getNum for every IP, and agree on
record reads whose seek stays inside the record's section: city and country
reads at a seek at most the cities-section size, and region reads wholly
inside the regions section.  (When a payload seek lies strictly beyond the
cities section the modes diverge: the counterexample shows MEMORY mode
erroring where FILE mode returns an empty read.) -/
theorem c3Amended (sm sf : SxGeo) (file rawB rawM : List Nat) (cs rs : Nat)
    (hm : sm.memoryMode = true) (hfm : sf.memoryMode = false) (hbf : sf.batchMode = false)
    (hh : sm.header = sf.header)
    (hpf : sm.packFormats = sf.packFormats)
    (hbs : sm.blockSize = sf.blockSize)
    (hbsv : sf.blockSize = 3 + sf.header.idLen)
    (hbiA : sm.byteIndexArr = parse32 rawB)
    (hbiS : sf.byteIndexStr = rawB)
    (hrawB : rawB.length = sf.header.byteIndexLen * 4)
    (hmiA : sm.mainIndexArr = parse32 rawM)
    (hmiS : sf.mainIndexStr = rawM)
    (hdd : sm.dbData =
      some ((file.drop sf.dbBegin).take (sf.header.dbItems * sf.blockSize)))
    (hf : sf.f = some file)
    (hflen : sf.dbBegin + sf.header.dbItems * sf.blockSize ≤ file.length)
    (hitems : sf.header.dbItems < 4294967296)
    (hbi : ∀ i, i < sf.header.byteIndexLen → be32 rawB (i * 4) ≤ sf.header.dbItems)
    (hcd : sm.citiesData = some ((file.drop sf.citiesBegin).take cs))
    (hrg : sm.regionsData = some ((file.drop sf.regionsBegin).take rs))
    (hcb : sf.citiesBegin = sf.regionsBegin + rs)
    (hfl2 : file.length = sf.citiesBegin + cs) :
    (∀ ip, sm.getNum ip = sf.getNum ip) ∧
    (∀ seek maxSize t, (t = 0 ∨ t = 2) → seek ≤ cs →
      sm.readData seek maxSize t = sf.readData seek maxSize t) ∧
    (∀ seek maxSize, seek + maxSize ≤ rs →
      sm.readData seek maxSize 1 = sf.readData seek maxSize 1) := by
  refine ⟨?_, ?_, ?_⟩
  · intro ip
    cases ip with
    | none => rfl
    | some ipNum =>
      exact getNumFrom_eq sm sf file rawB rawM hm hfm hbf hh hbs hbsv hbiA hbiS hrawB
        hmiA hmiS hdd hf hflen hitems hbi ipNum
  · intro seek maxSize t ht hseek
    rcases ht with rfl | rfl
    · exact readData_eq_core sm sf file sf.citiesBegin cs hm hfm hpf hf seek maxSize 0
        (by omega) hcd rfl (by omega) hseek (by omega)
    · exact readData_eq_core sm sf file sf.citiesBegin cs hm hfm hpf hf seek maxSize 2
        (by omega) hcd rfl (by omega) hseek (by omega)
  · intro seek maxSize hsm
    exact readData_eq_core sm sf file sf.regionsBegin rs hm hfm hpf hf seek maxSize 1
      (by omega) hrg rfl (by omega) (by omega) (by omega)

/-- C3 (amended) witness: the resident and file engines over the concrete
city database agree on the lookup core at a concrete IP. -/
theorem c3AmendedWitness :
    sCityC.getNum (some queryIp) = sCityCF.getNum (some queryIp) :=
  (c3Amended sCityC sCityCF dbFileC [0, 0, 0, 0, 0, 0, 0, 1] [1, 0, 0, 0] 6 4
    rfl rfl rfl rfl rfl rfl (by decide) (by decide) rfl (by decide) (by decide) rfl
    (by decide) rfl (by decide) (by decide)
    (by intro i hi; have hi2 : i < 2 := hi; interval_cases i <;> decide)
    (by decide) (by decide) (by decide) (by decide)).1 (some queryIp)
